import Mathlib

/-!
# Classpresso — a shallow embedding with verified properties

This file embeds the core of the Classpresso CSS class-consolidation
pipeline (occurrence scanner, pattern detector, CSS generator,
transformer) as executable Lean definitions, and proves the behavioural
properties claimed for it.

Modelling conventions:
* JavaScript strings are Lean `String` / `List Char`; the regular
  expressions of the source become explicit scanning functions on
  character lists (each regex is transcribed as a pattern record).
* JavaScript `Map`s preserve insertion order, so they are modelled as
  insertion-ordered association lists.
* File I/O is made explicit: a file is a (path, content) pair, and a
  fallible read is an `Except` value.
* JavaScript numbers holding byte counts are modelled as `Int` where
  subtraction occurs, `Nat` elsewhere.
* A few leaf modules of the repository (the hash-based name assigner,
  the metrics estimator and the mapping consolidator) are not among the
  available sources; those are modelled from the specification and are
  marked `Modelled from the spec:` in their doc comments.
-/

namespace Classpresso

/-! ### Character and string utilities -/

/-- Whitespace, as matched by the JavaScript `\s` character class
(for the characters that occur in build artifacts). -/
def isWS (c : Char) : Bool :=
  c = ' ' || c = '\t' || c = '\n' || c = '\r' || c = '\x0b' || c = '\x0c'

/-- JavaScript `\w`: ASCII letters, digits and underscore. -/
def isWordChar (c : Char) : Bool :=
  (97 ≤ c.toNat && c.toNat ≤ 122) ||
  (65 ≤ c.toNat && c.toNat ≤ 90) ||
  (48 ≤ c.toNat && c.toNat ≤ 57) ||
  c = '_'

/-- Auxiliary tokenizer: split on whitespace runs, dropping empty pieces
(this is `classString.split(/\s+/).filter(Boolean)` from the source). -/
def splitWSAux : List Char → List Char → List String
  | [], cur => if cur.isEmpty then [] else [String.mk cur.reverse]
  | c :: rest, cur =>
    if isWS c then
      if cur.isEmpty then splitWSAux rest []
      else String.mk cur.reverse :: splitWSAux rest []
    else splitWSAux rest (c :: cur)

/-- `s.split(/\s+/).filter(Boolean)`. -/
def splitWS (s : String) : List String := splitWSAux s.data []

/-- `array.join(' ')`. -/
def joinSpace : List String → String
  | [] => ""
  | [t] => t
  | t :: u :: rest => t ++ " " ++ joinSpace (u :: rest)

/-- Code-unit-wise lexicographic comparison on character lists, the
order used by JavaScript's default `Array.prototype.sort`. -/
def leChars : List Char → List Char → Bool
  | [], _ => true
  | _ :: _, [] => false
  | a :: as, b :: bs =>
    if a.toNat < b.toNat then true
    else if b.toNat < a.toNat then false
    else leChars as bs

/-- JavaScript default string comparison, as a proposition. -/
def strLeP (a b : String) : Prop := leChars a.data b.data = true

instance : DecidableRel strLeP := fun a b => by
  unfold strLeP; infer_instance

theorem leChars_total (a b : List Char) : leChars a b = true ∨ leChars b a = true := by
  induction a generalizing b with
  | nil => left; rfl
  | cons x xs ih =>
    cases b with
    | nil => right; rfl
    | cons y ys =>
      by_cases hxy : x.toNat < y.toNat
      · left; simp [leChars, hxy]
      · by_cases hyx : y.toNat < x.toNat
        · right; simp [leChars, hyx]
        · rcases ih ys with h | h
          · left; simp [leChars, hxy, hyx, h]
          · right; simp [leChars, hxy, hyx, h]

theorem char_eq_of_toNat_eq {a b : Char} (h : a.toNat = b.toNat) : a = b :=
  Char.ext (UInt32.ext h)

theorem leChars_cons_iff {a b : Char} {as bs : List Char} :
    leChars (a :: as) (b :: bs) = true ↔
      a.toNat < b.toNat ∨ (a.toNat = b.toNat ∧ leChars as bs = true) := by
  by_cases h1 : a.toNat < b.toNat
  · simp [leChars, h1]
  · by_cases h2 : b.toNat < a.toNat
    · simp only [leChars, if_neg h1, if_pos h2, Bool.false_eq_true, false_iff]
      rintro (h | ⟨h, _⟩) <;> omega
    · have heq : a.toNat = b.toNat := by omega
      simp only [leChars, if_neg h1, if_neg h2]
      constructor
      · exact fun hl => Or.inr ⟨heq, hl⟩
      · rintro (h | ⟨_, hl⟩)
        · omega
        · exact hl

theorem leChars_antisymm {a b : List Char} (h₁ : leChars a b = true)
    (h₂ : leChars b a = true) : a = b := by
  induction a generalizing b with
  | nil =>
    cases b with
    | nil => rfl
    | cons y ys => simp [leChars] at h₂
  | cons x xs ih =>
    cases b with
    | nil => simp [leChars] at h₁
    | cons y ys =>
      rw [leChars_cons_iff] at h₁ h₂
      rcases h₁ with h₁ | ⟨he₁, h₁⟩
      · rcases h₂ with h₂ | ⟨he₂, _⟩ <;> omega
      · rcases h₂ with h₂ | ⟨_, h₂⟩
        · omega
        · rw [char_eq_of_toNat_eq he₁, ih h₁ h₂]

theorem leChars_trans {a b c : List Char} (h₁ : leChars a b = true)
    (h₂ : leChars b c = true) : leChars a c = true := by
  induction a generalizing b c with
  | nil => rfl
  | cons x xs ih =>
    cases b with
    | nil => simp [leChars] at h₁
    | cons y ys =>
      cases c with
      | nil => simp [leChars] at h₂
      | cons z zs =>
        rw [leChars_cons_iff] at h₁ h₂ ⊢
        rcases h₁ with h₁ | ⟨he₁, h₁⟩
        · rcases h₂ with h₂ | ⟨he₂, _⟩
          · exact Or.inl (by omega)
          · exact Or.inl (by omega)
        · rcases h₂ with h₂ | ⟨he₂, h₂⟩
          · exact Or.inl (by omega)
          · exact Or.inr ⟨by omega, ih h₁ h₂⟩

instance : IsTotal String strLeP := ⟨fun a b => leChars_total a.data b.data⟩

instance : IsTrans String strLeP := ⟨fun _ _ _ => leChars_trans⟩

instance : IsAntisymm String strLeP :=
  ⟨fun a b h₁ h₂ => by
    have := leChars_antisymm h₁ h₂
    cases a; cases b; simp_all⟩

/-- The stable sort used to model JavaScript's `Array.prototype.sort`
with the default string comparator. -/
def sortStrings (l : List String) : List String := List.insertionSort strLeP l

theorem sortStrings_eq_of_perm {l₁ l₂ : List String} (h : l₁.Perm l₂) :
    sortStrings l₁ = sortStrings l₂ :=
  List.eq_of_perm_of_sorted (r := strLeP)
    (((List.perm_insertionSort strLeP l₁).trans h).trans
      (List.perm_insertionSort strLeP l₂).symm)
    (List.sorted_insertionSort strLeP l₁)
    (List.sorted_insertionSort strLeP l₂)

/-- `pre.isPrefixOf s` on strings (JS `String.prototype.startsWith`). -/
def strStartsWith (s pre : String) : Bool := pre.data.isPrefixOf s.data

/-- JS `String.prototype.endsWith`. -/
def strEndsWith (s suf : String) : Bool := suf.data.reverse.isPrefixOf s.data.reverse

/-! ### Configuration (src/types/index.ts, src/config.ts) -/

/-- `ExcludeConfig`. Regular-expression entries are modelled as Boolean
predicates on class names. -/
structure ExcludeConfig where
  prefixes : List String
  suffixes : List String
  classes : List String
  patterns : List (String → Bool)
  files : List String

/-- The fields of `ClasspressoConfig` that the consolidation core reads. -/
structure ClasspressoConfig where
  minOccurrences : Nat
  minClasses : Nat
  minBytesSaved : Int
  hashPrefixStr : String
  hashLength : Nat
  exclude : ExcludeConfig
  cssLayer : Option String
  dataAttributes : Bool
  forceAll : Bool
  excludeDynamicPatterns : Bool
  dynamicPrefixes : List String
  skipPatternsWithExcludedClasses : Bool
  ssr : Bool

/-! ### Scanner: class exclusion and normalization (src/core/scanner.ts) -/

/-- `shouldExcludeClass`: a class is excluded when it matches a safelist
rule (prefix, suffix, exact name, or pattern). -/
def shouldExcludeClass (className : String) (exclude : ExcludeConfig) : Bool :=
  exclude.prefixes.any (fun p => strStartsWith className p) ||
  exclude.suffixes.any (fun s => strEndsWith className s) ||
  exclude.classes.contains className ||
  exclude.patterns.any (fun p => p className)

/-- The result record of `normalizeClassString`. -/
structure NormalizeResult where
  normalized : String
  classes : List String
  excludedClasses : List String

/-- The partition loop of `normalizeClassString`: each token goes to the
included or the excluded list, preserving relative order. -/
def partitionClasses (exclude : ExcludeConfig) : List String → List String × List String
  | [] => ([], [])
  | cls :: rest =>
    let p := partitionClasses exclude rest
    if shouldExcludeClass cls exclude then (p.1, cls :: p.2) else (cls :: p.1, p.2)

theorem partitionClasses_fst (exclude : ExcludeConfig) (l : List String) :
    (partitionClasses exclude l).1 = l.filter (fun c => !shouldExcludeClass c exclude) := by
  induction l with
  | nil => rfl
  | cons c rest ih =>
    by_cases h : shouldExcludeClass c exclude = true <;>
      simp [partitionClasses, List.filter, h, ih]

theorem partitionClasses_snd (exclude : ExcludeConfig) (l : List String) :
    (partitionClasses exclude l).2 = l.filter (fun c => shouldExcludeClass c exclude) := by
  induction l with
  | nil => rfl
  | cons c rest ih =>
    by_cases h : shouldExcludeClass c exclude = true <;>
      simp [partitionClasses, List.filter, h, ih]

/-- `normalizeClassString`: split into tokens, separate excluded classes,
sort the included ones alphabetically, join them back together. -/
def normalizeClassString (classString : String) (exclude : ExcludeConfig) :
    NormalizeResult :=
  let allClasses := splitWS classString
  let p := partitionClasses exclude allClasses
  { normalized := joinSpace (sortStrings p.1)
    classes := p.1
    excludedClasses := p.2 }

theorem normalizeClassString_classes (s : String) (ex : ExcludeConfig) :
    (normalizeClassString s ex).classes =
      (splitWS s).filter (fun c => !shouldExcludeClass c ex) := by
  simp [normalizeClassString, partitionClasses_fst]

theorem normalizeClassString_excluded (s : String) (ex : ExcludeConfig) :
    (normalizeClassString s ex).excludedClasses =
      (splitWS s).filter (fun c => shouldExcludeClass c ex) := by
  simp [normalizeClassString, partitionClasses_snd]

theorem normalizeClassString_normalized (s : String) (ex : ExcludeConfig) :
    (normalizeClassString s ex).normalized =
      joinSpace (sortStrings (normalizeClassString s ex).classes) := by
  simp [normalizeClassString]

/-- Order-independence of the normalized key: equal multisets of
non-excluded tokens yield equal keys. -/
theorem normalized_eq_of_filter_perm {s₁ s₂ : String} {ex : ExcludeConfig}
    (h : ((splitWS s₁).filter (fun c => !shouldExcludeClass c ex)).Perm
         ((splitWS s₂).filter (fun c => !shouldExcludeClass c ex))) :
    (normalizeClassString s₁ ex).normalized = (normalizeClassString s₂ ex).normalized := by
  rw [normalizeClassString_normalized, normalizeClassString_normalized,
    normalizeClassString_classes, normalizeClassString_classes,
    sortStrings_eq_of_perm h]

/-- C10: `normalizeClassString` partitions its input: the `classes` and
`excludedClasses` lists together are a permutation of the
whitespace-separated tokens (no token dropped, duplicated or invented),
`classes` preserves the input's relative order, and `normalized` is the
sorted `classes` joined by single spaces. -/
theorem c10_normalize_partition (s : String) (ex : ExcludeConfig) :
    ((normalizeClassString s ex).classes ++
        (normalizeClassString s ex).excludedClasses).Perm (splitWS s) ∧
    (normalizeClassString s ex).classes.Sublist (splitWS s) ∧
    (normalizeClassString s ex).normalized =
      joinSpace (sortStrings (normalizeClassString s ex).classes) := by
  refine ⟨?_, ?_, normalizeClassString_normalized s ex⟩
  · rw [normalizeClassString_classes, normalizeClassString_excluded]
    have h := List.filter_append_perm (fun c => !shouldExcludeClass c ex) (splitWS s)
    simpa using h
  · rw [normalizeClassString_classes]
    exact List.filter_sublist _

/-! ### A matching engine for the source's regular expressions

Each regular expression of `src/utils/regex.ts` and
`src/core/transformer.ts` is a literal-heavy pattern of the shape
`pre (capture) post`, where `pre` and `post` are sequences of literal
text, `\s*` gaps and `\b` word boundaries (with ordered alternation),
and the capture is a nonempty greedy run over a negated character
class. `CPat` transcribes such a pattern; the engine below implements
the corresponding (backtracking) match and left-to-right global scan. -/

/-- Shorthand: the character list of a string literal. -/
def cs (s : String) : List Char := s.data

/-- One piece of the fixed part of a pattern. -/
inductive PTok where
  | lit : List Char → PTok
  | ws : PTok
  | bnd : PTok

/-- Greedy `\s*`: split off the leading whitespace run. -/
def takeWSRun : List Char → List Char × List Char
  | [] => ([], [])
  | c :: rest =>
    if isWS c then
      let p := takeWSRun rest
      (c :: p.1, p.2)
    else ([], c :: rest)

/-- The last character of `csl`, falling back to the previous one. -/
def lastCharOf (csl : List Char) (prev : Option Char) : Option Char :=
  match csl.getLast? with
  | some c => some c
  | none => prev

/-- JavaScript `\b`: a word boundary between the previous character and
the next one. -/
def boundaryOk (prev : Option Char) (l : List Char) : Bool :=
  let pw := match prev with | none => false | some c => isWordChar c
  let nw := match l.head? with | none => false | some c => isWordChar c
  pw != nw

/-- Match a fixed token sequence at the head of `l`, returning the
consumed text, the remaining text and the new previous character. -/
def matchP : List PTok → Option Char → List Char → Option (List Char × List Char × Option Char)
  | [], prev, l => some ([], l, prev)
  | .lit t :: rest, prev, l =>
    if t.isPrefixOf l then
      match matchP rest (lastCharOf t prev) (l.drop t.length) with
      | some (u, r, p) => some (t ++ u, r, p)
      | none => none
    else none
  | .ws :: rest, prev, l =>
    let w := takeWSRun l
    match matchP rest (lastCharOf w.1 prev) w.2 with
    | some (u, r, p) => some (w.1 ++ u, r, p)
    | none => none
  | .bnd :: rest, prev, l =>
    if boundaryOk prev l then matchP rest prev l else none

/-- Greedy capture run: the maximal prefix avoiding the stop characters. -/
def takeRun (stops : List Char) : List Char → List Char × List Char
  | [] => ([], [])
  | c :: rest =>
    if stops.contains c then ([], c :: rest)
    else
      let p := takeRun stops rest
      (c :: p.1, p.2)

/-- Try the post alternatives in order. -/
def tryPosts (posts : List (List PTok)) (prev : Option Char) (l : List Char) :
    Option (List Char × List Char × Option Char) :=
  match posts with
  | [] => none
  | p :: ps =>
    match matchP p prev l with
    | some r => some r
    | none => tryPosts ps prev l

/-- Backtracking over the greedy capture (fuel-bounded on the capture
length): starting from the full run, give characters back one at a time
until some post alternative matches; the capture must stay nonempty. -/
def tryCaptureAux (posts : List (List PTok)) :
    Nat → List Char → List Char → Option (List Char × List Char × List Char)
  | 0, _, _ => none
  | fuel + 1, cap, tail =>
    match cap with
    | [] => none
    | c :: cr =>
      match tryPosts posts (lastCharOf (c :: cr) none) tail with
      | some (t, r, _) => some (c :: cr, t, r)
      | none =>
        match (c :: cr).getLast? with
        | some lastc => tryCaptureAux posts fuel (c :: cr).dropLast (lastc :: tail)
        | none => none

/-- Returns (capture, post text, rest). -/
def tryCapture (posts : List (List PTok)) (cap tail : List Char) :
    Option (List Char × List Char × List Char) :=
  tryCaptureAux posts cap.length cap tail

/-- A transcribed regular expression: alternative fixed prefixes (tried
in order), the stop set of the capture class, and alternative fixed
suffixes (tried in order). -/
structure CPat where
  pres : List (List PTok)
  stops : List Char
  posts : List (List PTok)

/-- Try the pre alternatives in order; on each, run capture and post. -/
def tryPres (stops : List Char) (posts : List (List PTok)) :
    List (List PTok) → Option Char → List Char →
    Option (List Char × List Char × List Char × List Char)
  | [], _, _ => none
  | pre :: more, prev, l =>
    match matchP pre prev l with
    | some (t, r, _) =>
      let run := takeRun stops r
      match tryCapture posts run.1 run.2 with
      | some (cap, postT, rest) => some (t, cap, postT, rest)
      | none => tryPres stops posts more prev l
    | none => tryPres stops posts more prev l

/-- Match a whole pattern at the current position. Returns the pre
text, the capture, the post text and the rest of the input. -/
def matchCPat (p : CPat) (prev : Option Char) (l : List Char) :
    Option (List Char × List Char × List Char × List Char) :=
  tryPres p.stops p.posts p.pres prev l

/-- Global scan (the `while ((match = pattern.exec(content)) !== null)`
loop): collect (capture, match index) pairs left to right, continuing
after each match, else advancing one character. -/
def scanCPatAux (p : CPat) : Nat → Option Char → List Char → Nat → List (List Char × Nat)
  | 0, _, _, _ => []
  | fuel + 1, prev, l, idx =>
    match matchCPat p prev l with
    | some (preT, cap, postT, rest) =>
      (cap, idx) ::
        scanCPatAux p fuel (lastCharOf postT (lastCharOf cap (lastCharOf preT prev)))
          rest (idx + preT.length + cap.length + postT.length)
    | none =>
      match l with
      | [] => []
      | c :: rest => scanCPatAux p fuel (some c) rest (idx + 1)

/-- All matches of one pattern over a content string. -/
def scanCPat (p : CPat) (content : List Char) : List (List Char × Nat) :=
  scanCPatAux p (content.length + 1) none content 0

/-! ### The className extraction patterns (src/utils/regex.ts) -/

/-- `className\s*=\s*"([^"]+)"`. -/
def patJsxDouble : CPat :=
  { pres := [[.lit (cs "className"), .ws, .lit (cs "="), .ws, .lit (cs "\"")]]
    stops := ['"'], posts := [[.lit (cs "\"")]] }

/-- `className\s*=\s*'([^']+)'`. -/
def patJsxSingle : CPat :=
  { pres := [[.lit (cs "className"), .ws, .lit (cs "="), .ws, .lit (cs "\x27")]]
    stops := ['\x27'], posts := [[.lit (cs "\x27")]] }

/-- `className\s*:\s*"([^"]+)"`. -/
def patCreateElementDouble : CPat :=
  { pres := [[.lit (cs "className"), .ws, .lit (cs ":"), .ws, .lit (cs "\"")]]
    stops := ['"'], posts := [[.lit (cs "\"")]] }

/-- `className\s*:\s*'([^']+)'`. -/
def patCreateElementSingle : CPat :=
  { pres := [[.lit (cs "className"), .ws, .lit (cs ":"), .ws, .lit (cs "\x27")]]
    stops := ['\x27'], posts := [[.lit (cs "\x27")]] }

/-- `"className"\s*,\s*"([^"]+)"`. -/
def patMinifiedComma : CPat :=
  { pres := [[.lit (cs "\"className\""), .ws, .lit (cs ","), .ws, .lit (cs "\"")]]
    stops := ['"'], posts := [[.lit (cs "\"")]] }

/-- `\bclass\s*=\s*"([^"]+)"`. -/
def patHtmlDouble : CPat :=
  { pres := [[.bnd, .lit (cs "class"), .ws, .lit (cs "="), .ws, .lit (cs "\"")]]
    stops := ['"'], posts := [[.lit (cs "\"")]] }

/-- `\bclass\s*=\s*'([^']+)'`. -/
def patHtmlSingle : CPat :=
  { pres := [[.bnd, .lit (cs "class"), .ws, .lit (cs "="), .ws, .lit (cs "\x27")]]
    stops := ['\x27'], posts := [[.lit (cs "\x27")]] }

/-- `\bclass=&quot;([^&]+)&quot;`. -/
def patHtmlEntityDouble : CPat :=
  { pres := [[.bnd, .lit (cs "class=&quot;")]]
    stops := ['&'], posts := [[.lit (cs "&quot;")]] }

/-- `\bclass=&#34;([^&]+)&#34;`. -/
def patHtmlNumericDouble : CPat :=
  { pres := [[.bnd, .lit (cs "class=&#34;")]]
    stops := ['&'], posts := [[.lit (cs "&#34;")]] }

/-- `\\"className\\"\s*:\s*\\"([^"\\]+)\\"`. -/
def patRscPayload : CPat :=
  { pres := [[.lit (cs "\\\"className\\\""), .ws, .lit (cs ":"), .ws, .lit (cs "\\\"")]]
    stops := ['"', '\\'], posts := [[.lit (cs "\\\"")]] }

/-- `ALL_CLASS_PATTERNS`, in source order. -/
def ALL_CLASS_PATTERNS : List CPat :=
  [patJsxDouble, patJsxSingle, patCreateElementDouble, patCreateElementSingle,
   patMinifiedComma, patHtmlDouble, patHtmlSingle, patHtmlEntityDouble,
   patHtmlNumericDouble, patRscPayload]

/-! ### Dynamic class-string detection (src/utils/regex.ts) -/

/-- Does `sub` occur as a contiguous subsequence? -/
def containsSeq (sub : List Char) : List Char → Bool
  | [] => sub.isEmpty
  | c :: rest => sub.isPrefixOf (c :: rest) || containsSeq sub rest

/-- `/\w+\s*\(/.test`: some word character is followed (after optional
whitespace) by an opening parenthesis. -/
def hasFnCall : List Char → Bool
  | [] => false
  | c :: rest =>
    if isWordChar c then
      (match (takeWSRun rest).2 with
       | '(' :: _ => true
       | _ => hasFnCall rest)
    else hasFnCall rest

/-- `/^[a-z][a-zA-Z0-9]*$/.test`: a bare lowercase identifier. -/
def isBareIdent : List Char → Bool
  | [] => false
  | c :: rest =>
    (97 ≤ c.toNat && c.toNat ≤ 122) &&
    rest.all (fun d =>
      (97 ≤ d.toNat && d.toNat ≤ 122) ||
      (65 ≤ d.toNat && d.toNat ≤ 90) ||
      (48 ≤ d.toNat && d.toNat ≤ 57))

/-- `isDynamicClassString`: template-literal interpolation, a ternary,
a function call, or a bare lowercase identifier. -/
def isDynamicClassString (classString : String) : Bool :=
  containsSeq (cs "$\x7b") classString.data ||
  (classString.data.contains '?' && classString.data.contains ':') ||
  hasFnCall classString.data ||
  (isBareIdent classString.data && !classString.data.contains '-')

/-! ### extractClassStrings (src/core/scanner.ts) -/

/-- JS `String.prototype.trim` on character lists. -/
def trimChars (l : List Char) : List Char :=
  ((l.dropWhile isWS).reverse.dropWhile isWS).reverse

/-- JS `String.prototype.trim`. -/
def strTrim (s : String) : String := String.mk (trimChars s.data)

/-- A file location record. -/
structure FileLocation where
  filePath : String
  line : Option Nat
deriving DecidableEq

/-- An extraction result: the trimmed class string and its location. -/
structure Extracted where
  classString : String
  location : FileLocation
deriving DecidableEq

/-- The approximate line number of a match index: newlines before the
match, plus one. -/
def lineOfIdx (content : List Char) (idx : Nat) : Nat :=
  (content.take idx).count '\n' + 1

/-- The concatenated match lists of all extraction patterns, in source
order (the outer `for (const pattern of ALL_CLASS_PATTERNS)` loop). -/
def allMatches (content : List Char) : List (List Char × Nat) :=
  (ALL_CLASS_PATTERNS.map (fun p => scanCPat p content)).flatten

/-- The inner loop of `extractClassStrings`: skip empty captures, skip
dynamic expressions, deduplicate on the exact `filePath:classString`
key, and record the trimmed string with its line. -/
def extractLoop (filePath : String) (content : List Char) :
    List (List Char × Nat) → List String → List Extracted → List Extracted
  | [], _, acc => acc
  | (cap, idx) :: rest, seen, acc =>
    let classString := String.mk cap
    if (trimChars cap).isEmpty then extractLoop filePath content rest seen acc
    else if isDynamicClassString classString then extractLoop filePath content rest seen acc
    else
      let key := filePath ++ ":" ++ classString
      if seen.contains key then extractLoop filePath content rest seen acc
      else
        extractLoop filePath content rest (key :: seen)
          (acc ++ [{ classString := strTrim classString
                     location := { filePath := filePath
                                   line := some (lineOfIdx content idx) } }])

/-- `extractClassStrings`. -/
def extractClassStrings (content : String) (filePath : String) : List Extracted :=
  extractLoop filePath content.data (allMatches content.data) [] []

theorem extractLoop_filter_dynamic (fp : String) (c : List Char)
    (ms : List (List Char × Nat)) (seen : List String) (acc : List Extracted) :
    extractLoop fp c ms seen acc =
      extractLoop fp c
        (ms.filter (fun m => !isDynamicClassString (String.mk m.1))) seen acc := by
  induction ms generalizing seen acc with
  | nil => rfl
  | cons m rest ih =>
    obtain ⟨cap, idx⟩ := m
    by_cases hd : isDynamicClassString (String.mk cap) = true
    · by_cases he : (trimChars cap).isEmpty = true <;>
        simp [extractLoop, List.filter, hd, he, ih]
    · by_cases he : (trimChars cap).isEmpty = true
      · simp [extractLoop, List.filter, hd, he, ih]
      · by_cases hs : seen.contains (fp ++ ":" ++ String.mk cap) = true <;>
          simp [extractLoop, List.filter, hd, he, hs, ih]

/-- C4: every class-attribute value matched by the extraction patterns
that contains a dynamic-expression marker (interpolation, ternary,
function call, or bare lowercase identifier — `isDynamicClassString`)
is excluded from occurrence accounting: removing all such matches from
the scanner's match stream leaves the extraction result unchanged, so a
dynamic value contributes no occurrence record, no count increment and
no location entry. -/
theorem c4_dynamic_values_excluded (content filePath : String) :
    extractClassStrings content filePath =
      extractLoop filePath content.data
        ((allMatches content.data).filter
          (fun m => !isDynamicClassString (String.mk m.1))) [] [] := by
  unfold extractClassStrings
  exact extractLoop_filter_dynamic filePath content.data (allMatches content.data) [] []

/-! ### Source file kinds (src/utils/files.ts, src/core/scanner.ts) -/

/-- `SourceFileType`. -/
inductive SourceFileType where
  | js
  | html
  | rsc
deriving DecidableEq

/-- `/\.(js|mjs|cjs)$/`. -/
def isJSFile (filePath : String) : Bool :=
  strEndsWith filePath ".js" || strEndsWith filePath ".mjs" || strEndsWith filePath ".cjs"

/-- `/\.css$/`. -/
def isCSSFile (filePath : String) : Bool := strEndsWith filePath ".css"

/-- `/\.(html|htm)$/`. -/
def isHTMLFile (filePath : String) : Bool :=
  strEndsWith filePath ".html" || strEndsWith filePath ".htm"

/-- `/\.rsc$/`. -/
def isRSCFile (filePath : String) : Bool := strEndsWith filePath ".rsc"

/-- `getSourceFileType`. -/
def getSourceFileType (filePath : String) : SourceFileType :=
  if isHTMLFile filePath then .html
  else if isRSCFile filePath then .rsc
  else .js

/-! ### Occurrence records and aggregation (src/core/scanner.ts) -/

/-- `ClassOccurrence`; the `Set<SourceFileType>` is an
insertion-ordered duplicate-free list. -/
structure ClassOccurrence where
  classString : String
  normalizedKey : String
  count : Nat
  locations : List FileLocation
  classes : List String
  excludedClasses : List String
  sourceTypes : List SourceFileType
deriving DecidableEq

/-- `Set.prototype.add`. -/
def insertSourceType (st : SourceFileType) (l : List SourceFileType) : List SourceFileType :=
  if l.contains st then l else l ++ [st]

/-- `containsDynamicPrefix`: does some class carry a dynamic-library
marker (exact, `pfx-…`, or raw `pfx…` when the marker ends in a dash)? -/
def containsDynamicPrefix (classes : List String) (dynamicPrefixes : List String) : Bool :=
  classes.any (fun cls =>
    dynamicPrefixes.any (fun pfx =>
      if strEndsWith pfx "-" then strStartsWith cls pfx
      else cls == pfx || strStartsWith cls (pfx ++ "-")))

/-- `isHydrationSafe`: the pattern appears in a server context (html or
rsc) and in the client context (js). -/
def isHydrationSafe (occurrence : ClassOccurrence) : Bool :=
  (occurrence.sourceTypes.contains .html || occurrence.sourceTypes.contains .rsc) &&
  occurrence.sourceTypes.contains .js

/-- Ordered association-list lookup (JS `Map.prototype.get`). -/
def lookupAssoc {β : Type} (l : List (String × β)) (k : String) : Option β :=
  match l with
  | [] => none
  | (k', v) :: rest => if k' = k then some v else lookupAssoc rest k

/-- In-place value update (JS `Map` mutation keeps insertion order). -/
def updateAssoc {β : Type} (l : List (String × β)) (k : String) (f : β → β) :
    List (String × β) :=
  match l with
  | [] => []
  | (k', v) :: rest =>
    if k' = k then (k', f v) :: rest else (k', v) :: updateAssoc rest k f

/-- The occurrence-aggregation step of `scanBuildOutput` for one
extracted class string: filter out empty / too-small / dynamic-library
token sets, then merge into the existing occurrence for the normalized
key (count incremented, location appended, source kind added) or create
a fresh one. -/
def addSighting (config : ClasspressoConfig) (occs : List (String × ClassOccurrence))
    (classString : String) (location : FileLocation) (sourceType : SourceFileType) :
    List (String × ClassOccurrence) :=
  let n := normalizeClassString classString config.exclude
  if n.classes.length = 0 then occs
  else if n.classes.length < config.minClasses then occs
  else if config.excludeDynamicPatterns &&
      containsDynamicPrefix n.classes config.dynamicPrefixes then occs
  else
    match lookupAssoc occs n.normalized with
    | some _ =>
      updateAssoc occs n.normalized (fun occ =>
        { occ with
          count := occ.count + 1
          locations := occ.locations ++ [location]
          sourceTypes := insertSourceType sourceType occ.sourceTypes })
    | none =>
      occs ++ [(n.normalized,
        { classString := classString
          normalizedKey := n.normalized
          count := 1
          locations := [location]
          classes := n.classes
          excludedClasses := n.excludedClasses
          sourceTypes := [sourceType] })]

theorem any_eq_of_perm {α : Type} {p : α → Bool} {l₁ l₂ : List α} (h : l₁.Perm l₂) :
    l₁.any p = l₂.any p := by
  induction h with
  | nil => rfl
  | cons x _ ih => simp [List.any_cons, ih]
  | swap x y l => cases hp : p x <;> cases hq : p y <;> simp [List.any_cons, hp, hq]
  | trans _ _ ih₁ ih₂ => exact ih₁.trans ih₂

/-- C2: occurrence identity is order-independent. If two class strings
have the same multiset of non-safelisted tokens (equal up to
reordering), `normalizeClassString` gives them the same normalized key,
and aggregating both sightings produces a single occurrence whose count
is incremented to 2 and whose locations list holds both sightings —
never two distinct occurrences. -/
theorem c2_order_independent_keys
    (config : ClasspressoConfig) (s₁ s₂ : String) (loc₁ loc₂ : FileLocation)
    (st₁ st₂ : SourceFileType)
    (hperm : ((splitWS s₁).filter (fun c => !shouldExcludeClass c config.exclude)).Perm
             ((splitWS s₂).filter (fun c => !shouldExcludeClass c config.exclude)))
    (hne : (normalizeClassString s₁ config.exclude).classes.length ≠ 0)
    (hmin : config.minClasses ≤ (normalizeClassString s₁ config.exclude).classes.length)
    (hdyn : (config.excludeDynamicPatterns &&
      containsDynamicPrefix (normalizeClassString s₁ config.exclude).classes
        config.dynamicPrefixes) = false) :
    (normalizeClassString s₁ config.exclude).normalized =
      (normalizeClassString s₂ config.exclude).normalized ∧
    ∃ occ : ClassOccurrence,
      addSighting config (addSighting config [] s₁ loc₁ st₁) s₂ loc₂ st₂ =
        [((normalizeClassString s₁ config.exclude).normalized, occ)] ∧
      occ.count = 2 ∧ occ.locations = [loc₁, loc₂] := by
  have hkey := normalized_eq_of_filter_perm hperm
  have hclasses :
      (normalizeClassString s₁ config.exclude).classes.Perm
        (normalizeClassString s₂ config.exclude).classes := by
    rw [normalizeClassString_classes, normalizeClassString_classes]
    exact hperm
  have hlen := hclasses.length_eq
  have hne₂ : (normalizeClassString s₂ config.exclude).classes.length ≠ 0 := by omega
  have hmin₂ : config.minClasses ≤ (normalizeClassString s₂ config.exclude).classes.length := by
    omega
  have hdynAny :
      containsDynamicPrefix (normalizeClassString s₂ config.exclude).classes
          config.dynamicPrefixes =
        containsDynamicPrefix (normalizeClassString s₁ config.exclude).classes
          config.dynamicPrefixes := by
    unfold containsDynamicPrefix
    exact any_eq_of_perm hclasses.symm
  have hdyn₂ : (config.excludeDynamicPatterns &&
      containsDynamicPrefix (normalizeClassString s₂ config.exclude).classes
        config.dynamicPrefixes) = false := by
    rw [hdynAny]; exact hdyn
  refine ⟨hkey, ?_⟩
  have h1 : addSighting config [] s₁ loc₁ st₁ =
      [((normalizeClassString s₁ config.exclude).normalized,
        { classString := s₁
          normalizedKey := (normalizeClassString s₁ config.exclude).normalized
          count := 1
          locations := [loc₁]
          classes := (normalizeClassString s₁ config.exclude).classes
          excludedClasses := (normalizeClassString s₁ config.exclude).excludedClasses
          sourceTypes := [st₁] })] := by
    unfold addSighting
    simp only [if_neg hne, if_neg (by omega : ¬ (normalizeClassString s₁ config.exclude).classes.length < config.minClasses), hdyn]
    simp [lookupAssoc]
  rw [h1]
  unfold addSighting
  simp only [if_neg hne₂, if_neg (by omega : ¬ (normalizeClassString s₂ config.exclude).classes.length < config.minClasses), hdyn₂]
  simp only [lookupAssoc, ← hkey, if_pos rfl]
  refine ⟨{ classString := s₁
            normalizedKey := (normalizeClassString s₁ config.exclude).normalized
            count := 2
            locations := [loc₁, loc₂]
            classes := (normalizeClassString s₁ config.exclude).classes
            excludedClasses := (normalizeClassString s₁ config.exclude).excludedClasses
            sourceTypes := insertSourceType st₂ [st₁] }, ?_, rfl, rfl⟩
  simp [updateAssoc]

/-- Witness for C2 at `"b a"` / `"a b"` with an otherwise empty
safelist. -/
theorem c2_order_independent_keys_witness :
    (Classpresso.normalizeClassString "b a"
        ⟨[], [], [], [], []⟩).normalized =
      (Classpresso.normalizeClassString "a b"
        ⟨[], [], [], [], []⟩).normalized ∧
    ∃ occ : ClassOccurrence,
      addSighting ⟨2, 2, 10, "cp-", 5, ⟨[], [], [], [], []⟩, none,
          false, false, true, ["lucide"], true, false⟩
        (addSighting ⟨2, 2, 10, "cp-", 5, ⟨[], [], [], [], []⟩, none,
            false, false, true, ["lucide"], true, false⟩
          [] "b a" ⟨"x.html", some 1⟩ .html)
        "a b" ⟨"y.html", some 2⟩ .html =
        [((Classpresso.normalizeClassString "b a"
            ⟨[], [], [], [], []⟩).normalized, occ)] ∧
      occ.count = 2 ∧ occ.locations = [⟨"x.html", some 1⟩, ⟨"y.html", some 2⟩] := by
  exact c2_order_independent_keys
    ⟨2, 2, 10, "cp-", 5, ⟨[], [], [], [], []⟩, none,
      false, false, true, ["lucide"], true, false⟩
    "b a" "a b" ⟨"x.html", some 1⟩ ⟨"y.html", some 2⟩ .html .html
    (by decide) (by decide) (by decide) (by decide)

/-! ### Name assigner and overhead estimate (modelled from the spec) -/

/-- A base-36 digit character (0-9 then a-z). -/
def base36Digit (n : Nat) : Char :=
  if n < 10 then Char.ofNat (48 + n) else Char.ofNat (87 + n)

/-- Fixed-width base-36 rendering. -/
def toBase36 : Nat → Nat → List Char
  | 0, _ => []
  | w + 1, n => toBase36 w (n / 36) ++ [base36Digit (n % 36)]

theorem toBase36_length (w n : Nat) : (toBase36 w n).length = w := by
  induction w generalizing n with
  | zero => rfl
  | succ w ih => simp [toBase36, ih]

/-- A simple deterministic content hash over the key's characters. -/
def simpleHash (s : String) : Nat :=
  s.data.foldl (fun h c => (h * 33 + c.toNat) % 4738381338321616896) 5381

/-- Modelled from the spec: `generateHashName` (src/utils/hash.ts is
not among the sources). The Name Assigner derives a deterministic
content-derived short name: the configured fixed prefix followed by
exactly `hashLength` base-36 characters computed from the normalized
key. -/
def generateHashName (normalizedKey : String) (pfx : String) (hashLength : Nat) : String :=
  pfx ++ String.mk (toBase36 hashLength (simpleHash normalizedKey))

theorem generateHashName_length (k pfx : String) (n : Nat) :
    (generateHashName k pfx n).length = pfx.length + n := by
  unfold generateHashName
  rw [String.length_append]
  have h : (String.mk (toBase36 n (simpleHash k))).length = n := by
    show (toBase36 n (simpleHash k)).length = n
    exact toBase36_length n _
  omega

/-- Modelled from the spec: `calculatePatternCSSOverhead`
(src/core/metrics.ts is not among the sources). The estimated byte
overhead of the synthesized stylesheet rule for a token set: a fixed
selector-and-braces cost plus a per-declaration estimate. -/
def calculatePatternCSSOverhead (classes : List String) : Int :=
  12 + 8 * classes.length

/-! ### Pattern detector (src/core/pattern-detector.ts) -/

/-- `calculateBytesSaved`: the length of the non-safelisted portion of
the original class string minus the synthetic name length, times the
repeat count. -/
def calculateBytesSaved (original : String) (hashName : String) (frequency : Nat)
    (excludedClasses : List String) : Int :=
  let originalLength : Int := original.length
  let excludedLength : Int := (joinSpace excludedClasses).length
  let includedLength := originalLength - excludedLength -
    (if excludedClasses.length > 0 then 1 else 0)
  let newLength : Int := hashName.length
  (includedLength - newLength) * frequency

/-- `ConsolidationCandidate`. -/
structure ConsolidationCandidate where
  classString : String
  normalizedKey : String
  frequency : Nat
  bytesSaved : Int
  classes : List String
  excludedClasses : List String
  hashName : String
deriving DecidableEq

/-- Search for the next unused name (fuel-bounded). -/
def freshNameAux (base : String) : Nat → Nat → List String → String
  | 0, i, _ => base ++ String.mk (toBase36 2 i)
  | fuel + 1, i, used =>
    let cand := base ++ String.mk (toBase36 2 i)
    if used.contains cand then freshNameAux base fuel (i + 1) used else cand

/-- Modelled from the spec: the collision-resolution step of the Name
Assigner (src/utils/hash.ts is not among the sources). Candidates are
walked in order; a candidate whose hash name was already assigned
deterministically receives the next available name in sequence. Only
the `hashName` field is ever changed. -/
def resolveCollisionsAux (used : List String) :
    List ConsolidationCandidate → List ConsolidationCandidate
  | [] => []
  | c :: rest =>
    let name := if used.contains c.hashName
      then freshNameAux c.hashName (used.length + 1) 0 used
      else c.hashName
    { c with hashName := name } :: resolveCollisionsAux (name :: used) rest

/-- `resolveCollisions`. -/
def resolveCollisions (candidates : List ConsolidationCandidate) :
    List ConsolidationCandidate :=
  resolveCollisionsAux [] candidates

/-- Everything except the hash name. -/
def candCore (c : ConsolidationCandidate) :
    String × String × Nat × Int × List String × List String :=
  (c.classString, c.normalizedKey, c.frequency, c.bytesSaved, c.classes, c.excludedClasses)

theorem mem_resolveCollisionsAux {c : ConsolidationCandidate} :
    ∀ (used : List String) (l : List ConsolidationCandidate),
      c ∈ resolveCollisionsAux used l → ∃ c' ∈ l, candCore c' = candCore c := by
  intro used l
  induction l generalizing used with
  | nil => intro h; cases h
  | cons c₀ rest ih =>
    intro h
    rcases List.mem_cons.mp h with h | h
    · refine ⟨c₀, List.mem_cons_self _ _, ?_⟩
      rw [h]
      rfl
    · obtain ⟨c', hmem, hcore⟩ := ih _ h
      exact ⟨c', List.mem_cons_of_mem _ hmem, hcore⟩

/-- The descending-savings comparator of the final
`sort((a, b) => b.bytesSaved - a.bytesSaved)`. -/
def candLE (a b : ConsolidationCandidate) : Prop := b.bytesSaved ≤ a.bytesSaved

instance : DecidableRel candLE := fun a b => by unfold candLE; infer_instance

instance : IsTotal ConsolidationCandidate candLE :=
  ⟨fun a b => Int.le_total b.bytesSaved a.bytesSaved⟩

instance : IsTrans ConsolidationCandidate candLE :=
  ⟨fun _ _ _ h₁ h₂ => le_trans h₂ h₁⟩

/-- The stable sort modelling `Array.prototype.sort` with the
savings-descending comparator. -/
def sortCandidates (l : List ConsolidationCandidate) : List ConsolidationCandidate :=
  List.insertionSort candLE l

theorem mem_sortCandidates {c : ConsolidationCandidate} {l : List ConsolidationCandidate} :
    c ∈ sortCandidates l ↔ c ∈ l :=
  (List.perm_insertionSort candLE l).mem_iff

/-- The per-occurrence filter chain of `detectConsolidatablePatterns`. -/
def detectCandidate (config : ClasspressoConfig) (occurrence : ClassOccurrence) :
    Option ConsolidationCandidate :=
  if occurrence.count < config.minOccurrences then none
  else if occurrence.classes.length < config.minClasses then none
  else if config.ssr && !isHydrationSafe occurrence then none
  else if config.skipPatternsWithExcludedClasses &&
      occurrence.excludedClasses.length > 0 then none
  else if calculateBytesSaved occurrence.classString
      (generateHashName occurrence.normalizedKey config.hashPrefixStr config.hashLength)
      occurrence.count occurrence.excludedClasses < config.minBytesSaved then none
  else if !config.forceAll &&
      calculateBytesSaved occurrence.classString
        (generateHashName occurrence.normalizedKey config.hashPrefixStr config.hashLength)
        occurrence.count occurrence.excludedClasses ≤
        calculatePatternCSSOverhead occurrence.classes then none
  else some
    { classString := occurrence.classString
      normalizedKey := occurrence.normalizedKey
      frequency := occurrence.count
      bytesSaved := calculateBytesSaved occurrence.classString
        (generateHashName occurrence.normalizedKey config.hashPrefixStr config.hashLength)
        occurrence.count occurrence.excludedClasses
      classes := occurrence.classes
      excludedClasses := occurrence.excludedClasses
      hashName := generateHashName occurrence.normalizedKey
        config.hashPrefixStr config.hashLength }

/-- `detectConsolidatablePatterns`: filter each occurrence, resolve
hash collisions, sort by descending byte savings. -/
def detectConsolidatablePatterns (occurrences : List (String × ClassOccurrence))
    (config : ClasspressoConfig) : List ConsolidationCandidate :=
  sortCandidates (resolveCollisions
    (occurrences.filterMap (fun p => detectCandidate config p.2)))

theorem detectCandidate_props {config : ClasspressoConfig} {occ : ClassOccurrence}
    {c : ConsolidationCandidate} (h : detectCandidate config occ = some c) :
    c.normalizedKey = occ.normalizedKey ∧
    c.classString = occ.classString ∧
    c.frequency = occ.count ∧
    c.classes = occ.classes ∧
    c.excludedClasses = occ.excludedClasses ∧
    c.bytesSaved = calculateBytesSaved occ.classString
      (generateHashName occ.normalizedKey config.hashPrefixStr config.hashLength)
      occ.count occ.excludedClasses ∧
    config.minBytesSaved ≤ c.bytesSaved ∧
    (config.ssr = true → isHydrationSafe occ = true) := by
  unfold detectCandidate at h
  split at h
  · cases h
  split at h
  · cases h
  split at h
  · cases h
  split at h
  · cases h
  split at h
  · cases h
  split at h
  · cases h
  rename_i h1 h2 hssr h4 h5 h6
  cases h
  refine ⟨rfl, rfl, rfl, rfl, rfl, rfl, Int.not_lt.mp h5, ?_⟩
  intro hs
  by_cases hsafe : isHydrationSafe occ = true
  · exact hsafe
  · exact absurd (by simp [hs, hsafe]) hssr

/-- Every candidate in the detector's output stems from an input
occurrence through `detectCandidate`, with the same core fields. -/
theorem mem_detect_patterns {occurrences : List (String × ClassOccurrence)}
    {config : ClasspressoConfig} {c : ConsolidationCandidate}
    (h : c ∈ detectConsolidatablePatterns occurrences config) :
    ∃ p ∈ occurrences, ∃ c', detectCandidate config p.2 = some c' ∧
      candCore c' = candCore c := by
  unfold detectConsolidatablePatterns at h
  have h₁ := mem_sortCandidates.mp h
  obtain ⟨c', hmem, hcore⟩ := mem_resolveCollisionsAux _ _ h₁
  obtain ⟨p, hp, hdet⟩ := List.mem_filterMap.mp hmem
  exact ⟨p, hp, c', hdet, hcore⟩

/-- C3: in consistency-safe (ssr) mode, an occurrence whose source-kind
set contains only the script kind (`js`) and no server/static kind
(`html` / `rsc`) never yields a candidate: no element of
`detectConsolidatablePatterns` carries its normalized key. -/
theorem c3_ssr_filters_js_only (occurrences : List (String × ClassOccurrence))
    (config : ClasspressoConfig) (K : String)
    (hssr : config.ssr = true)
    (honly : ∀ p ∈ occurrences, p.2.normalizedKey = K →
      p.2.sourceTypes.contains SourceFileType.js = true ∧
      p.2.sourceTypes.contains SourceFileType.html = false ∧
      p.2.sourceTypes.contains SourceFileType.rsc = false) :
    ∀ c ∈ detectConsolidatablePatterns occurrences config, c.normalizedKey ≠ K := by
  intro c hc hk
  obtain ⟨p, hp, c', hdet, hcore⟩ := mem_detect_patterns hc
  obtain ⟨hkey, _, _, _, _, _, _, hsafe⟩ := detectCandidate_props hdet
  have hkey' : c'.normalizedKey = c.normalizedKey := congrArg (fun t => t.2.1) hcore
  have hK : p.2.normalizedKey = K := by rw [← hkey, hkey', hk]
  obtain ⟨_, hhtml, hrsc⟩ := honly p hp hK
  have hsafeT := hsafe hssr
  unfold isHydrationSafe at hsafeT
  rw [hhtml, hrsc] at hsafeT
  simp at hsafeT

/-- A concrete occurrence map for the C3 witness: one pattern seen only
in a script file. -/
def c3occs : List (String × ClassOccurrence) :=
  [("a b",
    { classString := "a b", normalizedKey := "a b", count := 5
      locations := [⟨"chunk.js", some 1⟩], classes := ["a", "b"]
      excludedClasses := [], sourceTypes := [SourceFileType.js] })]

/-- A concrete ssr-enabled configuration for the C3 witness. -/
def c3cfg : ClasspressoConfig :=
  ⟨1, 1, -100, "cp-", 5, ⟨[], [], [], [], []⟩, none, false, true, false, [], false, true⟩

/-- Witness for C3: with ssr enabled, the js-only occurrence `"a b"`
yields no candidate bearing its key. -/
theorem c3_ssr_filters_js_only_witness :
    (detectConsolidatablePatterns c3occs c3cfg).all
      (fun c => c.normalizedKey != "a b") = true := by
  rw [List.all_eq_true]
  intro c hcmem
  have h := c3_ssr_filters_js_only c3occs c3cfg "a b" rfl (by decide) c hcmem
  simpa using h

theorem joinSpace_length : ∀ l : List String, l ≠ [] →
    (joinSpace l).length + 1 = (l.map String.length).sum + l.length
  | [], h => absurd rfl h
  | [t], _ => by simp [joinSpace]
  | t :: u :: rest, _ => by
    have ih := joinSpace_length (u :: rest) (by simp)
    show (t ++ " " ++ joinSpace (u :: rest)).length + 1 = _
    rw [String.length_append, String.length_append]
    simp only [List.map_cons, List.sum_cons, List.length_cons] at ih ⊢
    have hsp : (" " : String).length = 1 := rfl
    omega

theorem candCore_fields {a b : ConsolidationCandidate} (h : candCore a = candCore b) :
    a.classString = b.classString ∧ a.normalizedKey = b.normalizedKey ∧
    a.frequency = b.frequency ∧ a.bytesSaved = b.bytesSaved ∧
    a.classes = b.classes ∧ a.excludedClasses = b.excludedClasses := by
  simpa [candCore, Prod.ext_iff] using h

/-- C6: for every occurrence surviving the detector's filters, the
estimated byte savings is `calculateBytesSaved` applied to the
occurrence's data, which — whenever the original class string is the
space-join of its tokens — equals (non-safelisted token lengths plus
separators, minus the synthetic name's length) times the repeat count;
and every candidate below `config.minBytesSaved` is rejected from the
candidate list. -/
theorem c6_bytes_saved_and_threshold (occurrences : List (String × ClassOccurrence))
    (config : ClasspressoConfig) :
    (∀ c ∈ detectConsolidatablePatterns occurrences config,
        config.minBytesSaved ≤ c.bytesSaved ∧
        c.bytesSaved = calculateBytesSaved c.classString
          (generateHashName c.normalizedKey config.hashPrefixStr config.hashLength)
          c.frequency c.excludedClasses) ∧
    (∀ (toks classes excludedClasses : List String) (hashName : String) (freq : Nat),
        toks ≠ [] → toks.Perm (classes ++ excludedClasses) →
        calculateBytesSaved (joinSpace toks) hashName freq excludedClasses =
          (((classes.map String.length).sum : Int) + classes.length - 1 -
            hashName.length) * freq) := by
  constructor
  · intro c hc
    obtain ⟨p, _, c', hdet, hcore⟩ := mem_detect_patterns hc
    obtain ⟨hkey, hcls, hfreq, hclasses, hexcl, hbytes, hmin, _⟩ := detectCandidate_props hdet
    obtain ⟨ecls, ekey, efreq, ebytes, _, eexcl⟩ := candCore_fields hcore
    constructor
    · rw [← ebytes]; exact hmin
    · rw [← ebytes, hbytes, ← ecls, ← ekey, ← efreq, ← eexcl]
      rw [hcls, hkey, hfreq, hexcl]
  · intro toks classes excl hashName freq hne hperm
    have hj := joinSpace_length toks hne
    have hsum : (toks.map String.length).sum =
        (classes.map String.length).sum + (excl.map String.length).sum := by
      have := (hperm.map String.length).sum_eq
      simpa [List.sum_append] using this
    have hlen : toks.length = classes.length + excl.length := by
      simpa using hperm.length_eq
    have key : ((joinSpace toks).length : Int) - ((joinSpace excl).length : Int) -
        (if excl.length > 0 then (1 : Int) else 0) =
        ((classes.map String.length).sum : Int) + classes.length - 1 := by
      have hjZ : ((joinSpace toks).length : Int) + 1 =
          ((toks.map String.length).sum : Int) + toks.length := by exact_mod_cast hj
      cases excl with
      | nil =>
        have hsumZ : ((toks.map String.length).sum : Int) =
            ((classes.map String.length).sum : Int) := by
          simp only [List.map_nil, List.sum_nil, Nat.add_zero] at hsum
          exact_mod_cast hsum
        have hlenZ : (toks.length : Int) = (classes.length : Int) := by
          simp only [List.length_nil, Nat.add_zero] at hlen
          exact_mod_cast hlen
        have hg0 : ((joinSpace ([] : List String)).length : Int) = 0 := rfl
        have hite : (if ([] : List String).length > 0 then (1 : Int) else 0) = 0 := rfl
        rw [hg0, hite]
        omega
      | cons e es =>
        have hjeZ : ((joinSpace (e :: es)).length : Int) + 1 =
            (((e :: es).map String.length).sum : Int) + (e :: es).length := by
          exact_mod_cast joinSpace_length (e :: es) (by simp)
        have hsumZ : ((toks.map String.length).sum : Int) =
            ((classes.map String.length).sum : Int) +
            (((e :: es).map String.length).sum : Int) := by exact_mod_cast hsum
        have hlenZ : (toks.length : Int) = (classes.length : Int) + (e :: es).length := by
          exact_mod_cast hlen
        have hite : (if (e :: es).length > 0 then (1 : Int) else 0) = 1 := by simp
        rw [hite]
        omega
    simp only [calculateBytesSaved]
    rw [key]

/-- A concrete occurrence map for the C6 witness. -/
def c6occs : List (String × ClassOccurrence) :=
  [("flex gap-2",
    { classString := "flex gap-2", normalizedKey := "flex gap-2", count := 3
      locations := [⟨"a.html", some 1⟩], classes := ["flex", "gap-2"]
      excludedClasses := [], sourceTypes := [SourceFileType.html] })]

/-- A concrete configuration for the C6 witness. -/
def c6cfg : ClasspressoConfig :=
  ⟨2, 2, 5, "cp-", 5, ⟨[], [], [], [], []⟩, none, false, true, false, [], false, false⟩

/-- Witness for C6 on a concrete occurrence map and a concrete
token-partition instance. -/
theorem c6_bytes_saved_and_threshold_witness :
    ((detectConsolidatablePatterns c6occs c6cfg).all
        (fun c => decide (c6cfg.minBytesSaved ≤ c.bytesSaved) &&
          decide (c.bytesSaved = calculateBytesSaved c.classString
            (generateHashName c.normalizedKey c6cfg.hashPrefixStr c6cfg.hashLength)
            c.frequency c.excludedClasses)) = true) ∧
    calculateBytesSaved (joinSpace ["px-4", "py-2", "js-x"]) "cp-abcde" 2 ["js-x"] =
      (((["px-4", "py-2"].map String.length).sum : Int) +
        (["px-4", "py-2"] : List String).length - 1 -
        ("cp-abcde" : String).length) * (2 : Nat) := by
  constructor
  · rw [List.all_eq_true]
    intro c hc
    have h := (c6_bytes_saved_and_threshold c6occs c6cfg).1 c hc
    simp only [Bool.and_eq_true, decide_eq_true_eq]
    exact ⟨h.1, h.2⟩
  · exact (c6_bytes_saved_and_threshold c6occs c6cfg).2
      ["px-4", "py-2", "js-x"] ["px-4", "py-2"] ["js-x"] "cp-abcde" 2
      (by decide) (by decide)

/-- A concrete occurrence map with two equal-savings candidates whose
map insertion order disagrees with normalized-key order. -/
def c7occs : List (String × ClassOccurrence) :=
  [("x1 y1",
    { classString := "x1 y1", normalizedKey := "x1 y1", count := 2
      locations := [⟨"a.html", none⟩], classes := ["x1", "y1"]
      excludedClasses := [], sourceTypes := [SourceFileType.html] }),
   ("a1 b1",
    { classString := "a1 b1", normalizedKey := "a1 b1", count := 2
      locations := [⟨"a.html", none⟩], classes := ["a1", "b1"]
      excludedClasses := [], sourceTypes := [SourceFileType.html] })]

/-- A concrete configuration under which both c7 occurrences survive
the filters. -/
def c7cfg : ClasspressoConfig :=
  ⟨1, 1, -100, "cp-", 5, ⟨[], [], [], [], []⟩, none, false, true, false, [], false, false⟩

/-- C7 counterexample: the detector's output is NOT ordered with ties
broken by normalized key. On `c7occs` both candidates save the same
bytes, yet the key `"x1 y1"` precedes the smaller key `"a1 b1"` —
ties retain the occurrence-map insertion order, so the claim as stated
is false. -/
theorem c7_counterexample :
    (detectConsolidatablePatterns c7occs c7cfg).map
        (fun c => (c.normalizedKey, c.bytesSaved)) =
      [("x1 y1", -6), ("a1 b1", -6)] ∧
    ¬ (detectConsolidatablePatterns c7occs c7cfg).Pairwise
        (fun a b => b.bytesSaved < a.bytesSaved ∨
          (a.bytesSaved = b.bytesSaved ∧ strLeP a.normalizedKey b.normalizedKey)) := by
  constructor
  · decide
  · decide

/-- C7 (amended): the candidate list is totally ordered by descending
byte savings; equal-savings ties are not reordered (the sort is stable,
keeping insertion order), with no key-based tie-break. -/
theorem c7_sorted_descending (occurrences : List (String × ClassOccurrence))
    (config : ClasspressoConfig) :
    (detectConsolidatablePatterns occurrences config).Pairwise
      (fun a b => b.bytesSaved ≤ a.bytesSaved) := by
  have h := List.sorted_insertionSort candLE
    (resolveCollisions (occurrences.filterMap (fun p => detectCandidate config p.2)))
  exact h

/-! ### Dynamic-base patterns and the Rewriter's hydration gate
(src/core/scanner.ts, src/core/transformer.ts) -/

/-- `DynamicBasePattern`: the static token sequence before a
build-time-unresolvable suffix. -/
structure DynamicBasePattern where
  baseClasses : List String
  normalizedKey : String
  locations : List FileLocation
deriving DecidableEq

/-- `ClassMapping`. -/
structure ClassMapping where
  original : String
  consolidated : String
  classes : List String
  excludedClasses : List String
  cssDeclarations : String
  frequency : Nat
  bytesSaved : Int
deriving DecidableEq

/-- `isSupersetOfDynamicBase`: all base classes are present and the
target class list has strictly more entries. -/
def isSupersetOfDynamicBase (classes : List String)
    (dynamicBasePatterns : List (String × DynamicBasePattern)) : Bool :=
  dynamicBasePatterns.any (fun p =>
    p.2.baseClasses.all (fun cls => classes.contains cls) &&
    classes.length > p.2.baseClasses.length)

/-- `matchesDynamicBase`: same number of entries and all base classes
present. -/
def matchesDynamicBase (classes : List String)
    (dynamicBasePatterns : List (String × DynamicBasePattern)) : Bool :=
  dynamicBasePatterns.any (fun p =>
    classes.length == p.2.baseClasses.length &&
    p.2.baseClasses.all (fun cls => classes.contains cls))

/-- The hydration-safety gate at the top of `transformFile`'s mapping
loop: with a nonempty dynamic-base map, an HTML artifact skips superset
mappings and a JS artifact skips exact-match mappings. -/
def skipForHydration (isHTMLf isJSf : Bool) (classes : List String)
    (dynamicBasePatterns : List (String × DynamicBasePattern)) : Bool :=
  if dynamicBasePatterns.length > 0 then
    if isHTMLf && isSupersetOfDynamicBase classes dynamicBasePatterns then true
    else if isJSf && matchesDynamicBase classes dynamicBasePatterns then true
    else false
  else false

/-- The mappings for which `transformFile`'s loop actually performs
substitutions (the ones not skipped by the hydration gate). -/
def appliedMappings (isHTMLf isJSf : Bool) (mappings : List ClassMapping)
    (dynamicBasePatterns : List (String × DynamicBasePattern)) : List ClassMapping :=
  mappings.filter (fun m => !skipForHydration isHTMLf isJSf m.classes dynamicBasePatterns)

/-- The dynamic-base map of the C1 counterexample: a base-class list
with a duplicated token (as produced by scanning
a template literal whose static prefix repeats a class). -/
def c1pats : List (String × DynamicBasePattern) :=
  [("a a", { baseClasses := ["a", "a"], normalizedKey := "a a"
             locations := [⟨"chunk.js", none⟩] })]

/-- The mapping of the C1 counterexample. -/
def c1mapping : ClassMapping :=
  { original := "a b", consolidated := "cp-x1y2z", classes := ["a", "b"]
    excludedClasses := [], cssDeclarations := "", frequency := 2, bytesSaved := 0 }

/-- C1 counterexample: the mapping's class set `{a, b}` is a strict
superset of the pattern's base-class set `{a}` (every base class is
among the mapping's classes and `"b"` is extra), yet in static-file
(HTML) context the gate does not skip the mapping — the substitution is
still applied. The length-based check of `isSupersetOfDynamicBase`
diverges from set-theoretic strict superset once a base-class list
contains duplicates. -/
theorem c1_counterexample :
    c1pats.map (fun p => p.2.baseClasses) = [["a", "a"]] ∧
    (∀ x ∈ (["a", "a"] : List String), x ∈ c1mapping.classes) ∧
    ("b" ∈ c1mapping.classes ∧ "b" ∉ (["a", "a"] : List String)) ∧
    isSupersetOfDynamicBase c1mapping.classes c1pats = false ∧
    skipForHydration true false c1mapping.classes c1pats = false ∧
    appliedMappings true false [c1mapping] c1pats = [c1mapping] := by
  refine ⟨rfl, by decide, ⟨by decide, by decide⟩, by decide, by decide, by decide⟩

/-- C1 (amended): for a Dynamic-Base Pattern whose base-class list is
duplicate-free, (a) in HTML (server/static) context every mapping whose
class set strictly contains the base classes is skipped — no
substitution is performed for it; (b) in JS (script) context every
mapping whose duplicate-free class list has exactly the base classes as
members is skipped. In particular `{a, b, c}` against base `{a, b}` is
skipped in static context and exactly `{a, b}` is skipped in script
context. -/
theorem c1_hydration_gate
    (dynamicBasePatterns : List (String × DynamicBasePattern))
    (pat : String × DynamicBasePattern) (hmem : pat ∈ dynamicBasePatterns)
    (hbnd : pat.2.baseClasses.Nodup) :
    (∀ m : ClassMapping,
      (∀ x ∈ pat.2.baseClasses, x ∈ m.classes) →
      (∃ y ∈ m.classes, y ∉ pat.2.baseClasses) →
      skipForHydration true false m.classes dynamicBasePatterns = true ∧
      ∀ mappings : List ClassMapping,
        m ∉ appliedMappings true false mappings dynamicBasePatterns) ∧
    (∀ m : ClassMapping, m.classes.Nodup →
      (∀ x ∈ m.classes, x ∈ pat.2.baseClasses) →
      (∀ x ∈ pat.2.baseClasses, x ∈ m.classes) →
      skipForHydration false true m.classes dynamicBasePatterns = true ∧
      ∀ mappings : List ClassMapping,
        m ∉ appliedMappings false true mappings dynamicBasePatterns) := by
  have hlenpos : dynamicBasePatterns.length > 0 :=
    List.length_pos.mpr (List.ne_nil_of_mem hmem)
  constructor
  · intro m hsub hstrict
    have hsup : isSupersetOfDynamicBase m.classes dynamicBasePatterns = true := by
      rw [isSupersetOfDynamicBase, List.any_eq_true]
      refine ⟨pat, hmem, ?_⟩
      rw [Bool.and_eq_true, List.all_eq_true]
      constructor
      · intro x hx
        exact List.elem_eq_true_of_mem (hsub x hx)
      · obtain ⟨y, hy, hyn⟩ := hstrict
        have hsubF : pat.2.baseClasses.toFinset ⊆ m.classes.toFinset := by
          intro x hx
          exact List.mem_toFinset.mpr (hsub x (List.mem_toFinset.mp hx))
        have hss : pat.2.baseClasses.toFinset ⊂ m.classes.toFinset := by
          rw [Finset.ssubset_iff_of_subset hsubF]
          exact ⟨y, List.mem_toFinset.mpr hy, fun hyc => hyn (List.mem_toFinset.mp hyc)⟩
        have hcard := Finset.card_lt_card hss
        have h₁ := List.toFinset_card_of_nodup hbnd
        have h₂ := List.toFinset_card_le m.classes
        simp only [gt_iff_lt, decide_eq_true_eq]
        omega
    have hskip : skipForHydration true false m.classes dynamicBasePatterns = true := by
      rw [skipForHydration]
      simp [hlenpos, hsup]
    refine ⟨hskip, fun mappings hmemf => ?_⟩
    have := (List.mem_filter.mp hmemf).2
    rw [hskip] at this
    cases this
  · intro m hnd hsub1 hsub2
    have hperm : m.classes.Perm pat.2.baseClasses :=
      (List.perm_ext_iff_of_nodup hnd hbnd).mpr
        (fun a => ⟨fun h => hsub1 a h, fun h => hsub2 a h⟩)
    have hmatch : matchesDynamicBase m.classes dynamicBasePatterns = true := by
      rw [matchesDynamicBase, List.any_eq_true]
      refine ⟨pat, hmem, ?_⟩
      rw [Bool.and_eq_true, List.all_eq_true]
      constructor
      · simpa using hperm.length_eq
      · intro x hx
        exact List.elem_eq_true_of_mem (hsub2 x hx)
    have hskip : skipForHydration false true m.classes dynamicBasePatterns = true := by
      rw [skipForHydration]
      simp [hlenpos, hmatch]
    refine ⟨hskip, fun mappings hmemf => ?_⟩
    have := (List.mem_filter.mp hmemf).2
    rw [hskip] at this
    cases this

/-- The dynamic-base map of the C1 witness (base `{a, b}`). -/
def c1wpats : List (String × DynamicBasePattern) :=
  [("a b", { baseClasses := ["a", "b"], normalizedKey := "a b"
             locations := [⟨"chunk.js", none⟩] })]

/-- The static-file mapping `{a, b, c}` of the C1 witness. -/
def c1wmapHtml : ClassMapping :=
  { original := "a b c", consolidated := "cp-abc12", classes := ["a", "b", "c"]
    excludedClasses := [], cssDeclarations := "", frequency := 2, bytesSaved := 0 }

/-- The script-file mapping `{a, b}` of the C1 witness. -/
def c1wmapJs : ClassMapping :=
  { original := "a b", consolidated := "cp-ab123", classes := ["a", "b"]
    excludedClasses := [], cssDeclarations := "", frequency := 2, bytesSaved := 0 }

/-- Witness for the amended C1: base `{a, b}`, static occurrence
`{a, b, c}` skipped in HTML context, script occurrence `{a, b}` skipped
in JS context. -/
theorem c1_hydration_gate_witness :
    (skipForHydration true false c1wmapHtml.classes c1wpats = true ∧
      c1wmapHtml ∉ appliedMappings true false [c1wmapHtml] c1wpats) ∧
    (skipForHydration false true c1wmapJs.classes c1wpats = true ∧
      c1wmapJs ∉ appliedMappings false true [c1wmapJs] c1wpats) := by
  have h := c1_hydration_gate c1wpats
    ("a b", { baseClasses := ["a", "b"], normalizedKey := "a b"
              locations := [⟨"chunk.js", none⟩] })
    (by decide) (by decide)
  constructor
  · have hh := h.1 c1wmapHtml (by decide) ⟨"c", by decide, by decide⟩
    exact ⟨hh.1, hh.2 [c1wmapHtml]⟩
  · have hj := h.2 c1wmapJs (by decide) (by decide) (by decide)
    exact ⟨hj.1, hj.2 [c1wmapJs]⟩

/-! ### CSS generator (src/core/css-generator.ts) -/

/-- `UTILITY_PROPERTY_MAP`: direct keyword-to-declaration mappings. -/
def UTILITY_PROPERTY_MAP : List (String × List String) :=
  [("flex", ["display: flex"]),
   ("grid", ["display: grid"]),
   ("block", ["display: block"]),
   ("inline", ["display: inline"]),
   ("inline-block", ["display: inline-block"]),
   ("hidden", ["display: none"]),
   ("flex-col", ["flex-direction: column"]),
   ("flex-row", ["flex-direction: row"]),
   ("flex-col-reverse", ["flex-direction: column-reverse"]),
   ("flex-row-reverse", ["flex-direction: row-reverse"]),
   ("flex-wrap", ["flex-wrap: wrap"]),
   ("flex-nowrap", ["flex-wrap: nowrap"]),
   ("justify-start", ["justify-content: flex-start"]),
   ("justify-end", ["justify-content: flex-end"]),
   ("justify-center", ["justify-content: center"]),
   ("justify-between", ["justify-content: space-between"]),
   ("justify-around", ["justify-content: space-around"]),
   ("justify-evenly", ["justify-content: space-evenly"]),
   ("items-start", ["align-items: flex-start"]),
   ("items-end", ["align-items: flex-end"]),
   ("items-center", ["align-items: center"]),
   ("items-baseline", ["align-items: baseline"]),
   ("items-stretch", ["align-items: stretch"]),
   ("text-left", ["text-align: left"]),
   ("text-center", ["text-align: center"]),
   ("text-right", ["text-align: right"]),
   ("font-bold", ["font-weight: 700"]),
   ("font-semibold", ["font-weight: 600"]),
   ("font-medium", ["font-weight: 500"]),
   ("font-normal", ["font-weight: 400"]),
   ("font-light", ["font-weight: 300"]),
   ("relative", ["position: relative"]),
   ("absolute", ["position: absolute"]),
   ("fixed", ["position: fixed"]),
   ("sticky", ["position: sticky"]),
   ("overflow-hidden", ["overflow: hidden"]),
   ("overflow-auto", ["overflow: auto"]),
   ("overflow-scroll", ["overflow: scroll"]),
   ("overflow-visible", ["overflow: visible"]),
   ("cursor-pointer", ["cursor: pointer"]),
   ("cursor-default", ["cursor: default"]),
   ("cursor-not-allowed", ["cursor: not-allowed"]),
   ("truncate",
     ["overflow: hidden", "text-overflow: ellipsis", "white-space: nowrap"]),
   ("uppercase", ["text-transform: uppercase"]),
   ("lowercase", ["text-transform: lowercase"]),
   ("capitalize", ["text-transform: capitalize"])]

def isLowerAlpha (c : Char) : Bool := 97 ≤ c.toNat && c.toNat ≤ 122
def isDigitChar (c : Char) : Bool := 48 ≤ c.toNat && c.toNat ≤ 57

/-- `\d+(\.\d+)?` (a full-string match). -/
def isNumericVal (l : List Char) : Bool :=
  let ip := l.takeWhile isDigitChar
  if ip.isEmpty then false
  else
    match l.drop ip.length with
    | [] => true
    | '.' :: fr => !fr.isEmpty && fr.all isDigitChar
    | _ => false

/-- `\[.+\]` (a full-string match). -/
def isBracketedVal (l : List Char) : Bool :=
  match l with
  | '[' :: rest => rest.length ≥ 2 && rest.getLast? == some ']'
  | _ => false

/-- Match `^(pfx₁|pfx₂|…)-(value)$` with the alternatives tried in
regex order and the value checked by `valueOk`. -/
def matchPrefixValue (prefixes : List String) (valueOk : List Char → Bool)
    (className : String) : Option (String × String) :=
  match prefixes with
  | [] => none
  | pfx :: more =>
    if strStartsWith className (pfx ++ "-") &&
        valueOk (className.data.drop (pfx.length + 1)) &&
        decide (className.length > pfx.length + 1) then
      some (pfx, String.mk (className.data.drop (pfx.length + 1)))
    else matchPrefixValue more valueOk className

/-- `^([a-z]+(?:-[a-z]+)?)-\[(.+)\]$`: the arbitrary-value shape. The
prefix is one or two lowercase segments (greedy), the bracketed value
is everything up to the final bracket. -/
def matchArbitrary (className : String) : Option (String × String) :=
  let l := className.data
  let p1 := l.takeWhile isLowerAlpha
  if p1.isEmpty then none
  else
    let tail2 :=
      match l.drop p1.length with
      | '-' :: r2 =>
        let p2 := r2.takeWhile isLowerAlpha
        if p2.isEmpty then none
        else some (p1 ++ '-' :: p2, r2.drop p2.length)
      | _ => none
    let finish : List Char × List Char → Option (String × String) := fun pr =>
      match pr.2 with
      | '-' :: '[' :: middle =>
        if middle.length ≥ 2 && middle.getLast? == some ']' then
          some (String.mk pr.1, String.mk middle.dropLast)
        else none
      | _ => none
    match tail2 with
    | some pr =>
      match finish pr with
      | some res => some res
      | none => finish (p1, l.drop p1.length)
    | none => finish (p1, l.drop p1.length)

/-- The property map of `parseArbitraryValue`. -/
def arbitraryPropertyMap : List (String × String) :=
  [("text", "color"), ("bg", "background-color"), ("border", "border-color"),
   ("border-t", "border-top-color"), ("border-b", "border-bottom-color"),
   ("border-l", "border-left-color"), ("border-r", "border-right-color"),
   ("fill", "fill"), ("stroke", "stroke"),
   ("p", "padding"), ("px", "padding-inline"), ("py", "padding-block"),
   ("pt", "padding-top"), ("pb", "padding-bottom"),
   ("pl", "padding-left"), ("pr", "padding-right"),
   ("m", "margin"), ("mx", "margin-inline"), ("my", "margin-block"),
   ("mt", "margin-top"), ("mb", "margin-bottom"),
   ("ml", "margin-left"), ("mr", "margin-right"),
   ("w", "width"), ("h", "height"),
   ("min-w", "min-width"), ("min-h", "min-height"),
   ("max-w", "max-width"), ("max-h", "max-height"),
   ("top", "top"), ("bottom", "bottom"), ("left", "left"), ("right", "right"),
   ("gap", "gap"), ("gap-x", "column-gap"), ("gap-y", "row-gap")]

/-- `parseArbitraryValue`. -/
def parseArbitraryValue (pfx : String) (value : String) : List String :=
  match lookupAssoc arbitraryPropertyMap pfx with
  | some property => [property ++ ": " ++ value]
  | none => []

/-- The Tailwind spacing scale of `parseSpacingUtility`. -/
def spacingScale : List (String × String) :=
  [("0", "0px"), ("0.5", "0.125rem"), ("1", "0.25rem"), ("1.5", "0.375rem"),
   ("2", "0.5rem"), ("2.5", "0.625rem"), ("3", "0.75rem"), ("3.5", "0.875rem"),
   ("4", "1rem"), ("5", "1.25rem"), ("6", "1.5rem"), ("7", "1.75rem"),
   ("8", "2rem"), ("9", "2.25rem"), ("10", "2.5rem"), ("11", "2.75rem"),
   ("12", "3rem"), ("14", "3.5rem"), ("16", "4rem"), ("20", "5rem"),
   ("24", "6rem"), ("28", "7rem"), ("32", "8rem"), ("36", "9rem"),
   ("40", "10rem"), ("44", "11rem"), ("48", "12rem"), ("52", "13rem"),
   ("56", "14rem"), ("60", "15rem"), ("64", "16rem"), ("72", "18rem"),
   ("80", "20rem"), ("96", "24rem")]

/-- The spacing property map. -/
def spacingPropertyMap : List (String × List String) :=
  [("p", ["padding"]), ("px", ["padding-left", "padding-right"]),
   ("py", ["padding-top", "padding-bottom"]),
   ("pt", ["padding-top"]), ("pb", ["padding-bottom"]),
   ("pl", ["padding-left"]), ("pr", ["padding-right"]),
   ("m", ["margin"]), ("mx", ["margin-left", "margin-right"]),
   ("my", ["margin-top", "margin-bottom"]),
   ("mt", ["margin-top"]), ("mb", ["margin-bottom"]),
   ("ml", ["margin-left"]), ("mr", ["margin-right"]),
   ("gap", ["gap"]), ("gap-x", ["column-gap"]), ("gap-y", ["row-gap"])]

/-- `parseSpacingUtility`. -/
def parseSpacingUtility (pfx : String) (value : String) : List String :=
  let scaled := lookupAssoc spacingScale value
  let cssValue :=
    match scaled with
    | some v => some v
    | none =>
      if strStartsWith value "[" && strEndsWith value "]" then
        some (String.mk value.data.dropLast.tail)
      else none
  match cssValue with
  | none => []
  | some v =>
    match lookupAssoc spacingPropertyMap pfx with
    | some props => props.map (fun p => p ++ ": " ++ v)
    | none => []

/-- Decimal division `num / den` rendered exactly (fuel-bounded digit
expansion; the divisors in play have only factors 2 and 5, so the
expansion terminates). This models the JS number-to-string rendering of
the quarter-rem scaling. -/
def decimalFracDigits : Nat → Nat → Nat → List Char
  | 0, _, _ => []
  | _, 0, _ => []
  | fuel + 1, r, den =>
    let r10 := r * 10
    let d := r10 / den
    Char.ofNat (48 + d) :: decimalFracDigits fuel (r10 % den) den

/-- Render `num / den` as a decimal numeral. -/
def formatDecimalDiv (num den : Nat) : String :=
  let q := num / den
  let r := num % den
  if r = 0 then toString q
  else toString q ++ "." ++ String.mk (decimalFracDigits 32 r den)

/-- Parse `\d+(\.\d+)?` into (numerator, denominator). -/
def parseDecimal (l : List Char) : Nat × Nat :=
  let ip := l.takeWhile isDigitChar
  let ipv := ip.foldl (fun a c => a * 10 + (c.toNat - 48)) 0
  match l.drop ip.length with
  | '.' :: fr =>
    let frv := fr.foldl (fun a c => a * 10 + (c.toNat - 48)) 0
    (ipv * 10 ^ fr.length + frv, 10 ^ fr.length)
  | _ => (ipv, 1)

/-- The size keyword map of `parseSizeUtility`. -/
def sizeKeywordMap : List (String × String) :=
  [("full", "100%"), ("screen", "100vh"), ("svh", "100svh"), ("lvh", "100lvh"),
   ("dvh", "100dvh"), ("min", "min-content"), ("max", "max-content"),
   ("fit", "fit-content"), ("auto", "auto")]

/-- The size property map. -/
def sizePropertyMap : List (String × String) :=
  [("w", "width"), ("h", "height"), ("min-w", "min-width"),
   ("min-h", "min-height"), ("max-w", "max-width"), ("max-h", "max-height")]

/-- `parseSizeUtility` (`value * 0.25` rendered in exact decimal). -/
def parseSizeUtility (pfx : String) (value : String) : List String :=
  let v1 := lookupAssoc sizeKeywordMap value
  let v2 :=
    match v1 with
    | some v => some v
    | none =>
      if strStartsWith value "[" && strEndsWith value "]" then
        some (String.mk value.data.dropLast.tail)
      else none
  let v3 :=
    match v2 with
    | some v => some v
    | none =>
      if isNumericVal value.data then
        let nd := parseDecimal value.data
        some (formatDecimalDiv nd.1 (nd.2 * 4) ++ "rem")
      else none
  match v3 with
  | none => []
  | some v =>
    match lookupAssoc sizePropertyMap pfx with
    | some property => [property ++ ": " ++ v]
    | none => []

/-- The rounded map of `parseRoundedUtility`. -/
def roundedMap : List (String × String) :=
  [("rounded", "border-radius: 0.25rem"), ("rounded-none", "border-radius: 0px"),
   ("rounded-sm", "border-radius: 0.125rem"), ("rounded-md", "border-radius: 0.375rem"),
   ("rounded-lg", "border-radius: 0.5rem"), ("rounded-xl", "border-radius: 0.75rem"),
   ("rounded-2xl", "border-radius: 1rem"), ("rounded-3xl", "border-radius: 1.5rem"),
   ("rounded-full", "border-radius: 9999px")]

def isLowerAlphaNum (c : Char) : Bool := isLowerAlpha c || isDigitChar c

/-- `^rounded(-[a-z]+)?(-[a-z0-9]+)?$`. -/
def matchRounded (className : String) : Bool :=
  if strStartsWith className "rounded" then
    match className.data.drop 7 with
    | [] => true
    | '-' :: rest =>
      let s1 := rest.takeWhile isLowerAlphaNum
      if s1.isEmpty then false
      else
        match rest.drop s1.length with
        | [] => true
        | '-' :: s2 =>
          !s2.isEmpty && s2.all isLowerAlphaNum && s1.all isLowerAlpha
        | _ => false
    | _ => false
  else false

/-- `parseRoundedUtility`. -/
def parseRoundedUtility (className : String) : List String :=
  match lookupAssoc roundedMap className with
  | some v => [v]
  | none => []

/-- The text-size map of `parseTextSizeUtility`. -/
def textSizeMap : List (String × (String × String)) :=
  [("xs", ("0.75rem", "1rem")), ("sm", ("0.875rem", "1.25rem")),
   ("base", ("1rem", "1.5rem")), ("lg", ("1.125rem", "1.75rem")),
   ("xl", ("1.25rem", "1.75rem")), ("2xl", ("1.5rem", "2rem")),
   ("3xl", ("1.875rem", "2.25rem")), ("4xl", ("2.25rem", "2.5rem")),
   ("5xl", ("3rem", "1")), ("6xl", ("3.75rem", "1")),
   ("7xl", ("4.5rem", "1")), ("8xl", ("6rem", "1")), ("9xl", ("8rem", "1"))]

/-- `parseTextSizeUtility`. -/
def parseTextSizeUtility (size : String) : List String :=
  let fs :=
    match lookupAssoc textSizeMap size with
    | some v => v
    | none => ("1rem", "1.5rem")
  ["font-size: " ++ fs.1, "line-height: " ++ fs.2]

/-- The text-size alternatives, in regex order. -/
def textSizeAlternatives : List String :=
  ["xs", "sm", "base", "lg", "xl", "2xl", "3xl", "4xl", "5xl", "6xl",
   "7xl", "8xl", "9xl"]

/-- `^text-(xs|sm|…)$`: the alternatives tried in regex order. -/
def findTextSize : List String → String → Option String
  | [], _ => none
  | alt :: more, className =>
    if className == "text-" ++ alt then some alt else findTextSize more className

/-- `^opacity-(\d+)$`, with the captured digits parsed (`parseInt`). -/
def matchOpacity (className : String) : Option Nat :=
  if strStartsWith className "opacity-" then
    let v := className.data.drop 8
    if !v.isEmpty && v.all isDigitChar then
      some (v.foldl (fun a c => a * 10 + (c.toNat - 48)) 0)
    else none
  else none

/-- `^z-(\d+|auto)$`. -/
def matchZ (className : String) : Option String :=
  if strStartsWith className "z-" then
    let v := className.data.drop 2
    if (!v.isEmpty && v.all isDigitChar) || v = ['a', 'u', 't', 'o'] then
      some (String.mk v)
    else none
  else none

/-- `parseUtilityClass`: direct map, then arbitrary values, spacing,
sizing, rounded, text size, opacity, z-index; unknown utilities yield
nothing. -/
def parseUtilityClass (className : String) : List String :=
  match lookupAssoc UTILITY_PROPERTY_MAP className with
  | some v => v
  | none =>
    match matchArbitrary className with
    | some pv => parseArbitraryValue pv.1 pv.2
    | none =>
      match matchPrefixValue
          ["p", "px", "py", "pt", "pb", "pl", "pr", "m", "mx", "my", "mt",
           "mb", "ml", "mr", "gap", "gap-x", "gap-y"]
          (fun v => isNumericVal v || isBracketedVal v) className with
      | some pv => parseSpacingUtility pv.1 pv.2
      | none =>
        match matchPrefixValue ["w", "h", "min-w", "min-h", "max-w", "max-h"]
            (fun v => !v.isEmpty) className with
        | some pv => parseSizeUtility pv.1 pv.2
        | none =>
          if matchRounded className then parseRoundedUtility className
          else
            match findTextSize textSizeAlternatives className with
            | some size => parseTextSizeUtility size
            | none =>
              match matchOpacity className with
              | some n => ["opacity: " ++ formatDecimalDiv n 100]
              | none =>
                match matchZ className with
                | some v => ["z-index: " ++ v]
                | none => []

/-- `array.join(sep)`. -/
def joinSep (sep : String) : List String → String
  | [] => ""
  | [t] => t
  | t :: u :: rest => t ++ sep ++ joinSep sep (u :: rest)

/-- `[...new Set(declarations)]`: first-occurrence deduplication. -/
def dedupAux : List String → List String → List String
  | [], _ => []
  | x :: rest, seen =>
    if seen.contains x then dedupAux rest seen else x :: dedupAux rest (x :: seen)

def dedupList (l : List String) : List String := dedupAux l []

/-- The per-mapping declaration resolution of `generateConsolidatedCSS`:
extracted utilities from the build stylesheet first, then the built-in
utility interpreter. -/
def buildDeclarations (utilityMap : List (String × List String))
    (classes : List String) : List String :=
  classes.foldl (fun decls className =>
    match lookupAssoc utilityMap className with
    | some extracted => decls ++ extracted
    | none => decls ++ parseUtilityClass className) []

/-- One consolidated rule: `.name {\n  d₁;\n  d₂;\n}`. -/
def cssRule (name : String) (decls : List String) : String :=
  "." ++ name ++ " \x7b\n  " ++ joinSep ";\n  " decls ++ ";\n\x7d"

/-- The rule-building loop: collect nonempty rules and fill each
mapping's `cssDeclarations`. -/
def genRules (utilityMap : List (String × List String)) :
    List ClassMapping → List String × List ClassMapping
  | [] => ([], [])
  | m :: rest =>
    let unique := dedupList (buildDeclarations utilityMap m.classes)
    let p := genRules utilityMap rest
    if unique.length > 0 then
      (cssRule m.consolidated unique :: p.1,
        { m with cssDeclarations := joinSep "; " unique } :: p.2)
    else (p.1, m :: p.2)

/-- The header comment of the generated stylesheet. -/
def cpHeader : String := "/* Classpresso Consolidated Classes */\n"

/-- Indent a rule for the `@layer` wrapping
(`'  ' + rule.replace(/\n/g, '\n  ')`). -/
def indentRule (rule : String) : String :=
  "  " ++ String.mk (rule.data.flatMap (fun c =>
    if c = '\n' then ['\n', ' ', ' '] else [c]))

/-- `generateConsolidatedCSS`, with the utility map extracted from the
build's stylesheets passed in explicitly (the I/O boundary of
`extractUtilityCSS`). Returns the stylesheet text and the mappings with
their `cssDeclarations` filled in. -/
def generateConsolidatedCSS (utilityMap : List (String × List String))
    (mappings : List ClassMapping) (cssLayer : Option String) :
    String × List ClassMapping :=
  let p := genRules utilityMap mappings
  match cssLayer with
  | some layer =>
    (cpHeader ++ "@layer " ++ layer ++ " \x7b\n" ++
      joinSep "\n\n" (p.1.map indentRule) ++ "\n\x7d", p.2)
  | none => (cpHeader ++ joinSep "\n\n" p.1, p.2)

/-! ### Stylesheet injection (src/core/css-generator.ts) -/

/-- A stylesheet file of the build output. -/
structure CssFile where
  path : String
  content : String
deriving DecidableEq

/-- The idempotency marker (`content.includes('Classpresso
Consolidated')`). -/
def cpMarker : String := "Classpresso Consolidated"

/-- JS `String.prototype.includes`. -/
def containsSub (s sub : String) : Bool := containsSeq sub.data s.data

/-- The target-selection loop of `injectConsolidatedCSS`: skip non-CSS
files, return early on the marker, otherwise keep the first largest
file. -/
def injectScan : List CssFile → String → Nat → Sum String String
  | [], target, _ => Sum.inr target
  | f :: rest, target, maxSize =>
    if !isCSSFile f.path then injectScan rest target maxSize
    else if containsSub f.content cpMarker then Sum.inl f.path
    else if f.content.utf8ByteSize > maxSize then
      injectScan rest f.path f.content.utf8ByteSize
    else injectScan rest target maxSize

/-- `injectConsolidatedCSS`: error when no stylesheet exists; skip all
writes when any stylesheet already carries the marker; otherwise append
the consolidated CSS to the largest stylesheet only. -/
def injectConsolidatedCSS (files : List CssFile) (consolidatedCSS : String) :
    Except String (String × List CssFile) :=
  match files with
  | [] => Except.error "No CSS files found in build output"
  | f0 :: _ =>
    match injectScan files f0.path 0 with
    | Sum.inl p => Except.ok ("none (already injected in " ++ p ++ ")", files)
    | Sum.inr target =>
      Except.ok (target, files.map (fun f =>
        if f.path = target then
          { f with content := f.content ++ "\n\n" ++ consolidatedCSS }
        else f))

theorem containsSeq_append_right {sub t : List Char} (h : containsSeq sub t = true)
    (s : List Char) : containsSeq sub (s ++ t) = true := by
  induction s with
  | nil => exact h
  | cons c rest ih =>
    show (sub.isPrefixOf (c :: (rest ++ t)) || containsSeq sub (rest ++ t)) = true
    rw [ih]
    simp

theorem isPrefixOf_append {sub s : List Char} (h : sub.isPrefixOf s = true)
    (t : List Char) : sub.isPrefixOf (s ++ t) = true := by
  induction sub generalizing s with
  | nil => simp [List.isPrefixOf]
  | cons c cr ih =>
    cases s with
    | nil => simp [List.isPrefixOf] at h
    | cons d dr =>
      simp only [List.cons_append, List.isPrefixOf_cons₂] at h ⊢
      rw [Bool.and_eq_true] at h
      rw [Bool.and_eq_true]
      exact ⟨h.1, ih h.2⟩

theorem containsSeq_append_left {sub s : List Char} (h : containsSeq sub s = true)
    (t : List Char) : containsSeq sub (s ++ t) = true := by
  induction s with
  | nil =>
    have : sub = [] := by
      simpa [containsSeq, List.isEmpty_iff] using h
    subst this
    cases t with
    | nil => rfl
    | cons c r => simp [containsSeq, List.isPrefixOf]
  | cons c rest ih =>
    rw [containsSeq, Bool.or_eq_true] at h
    rcases h with h | h
    · show (sub.isPrefixOf (c :: (rest ++ t)) || _) = true
      rw [show c :: (rest ++ t) = (c :: rest) ++ t from rfl,
        isPrefixOf_append h t]
      simp
    · show (_ || containsSeq sub (rest ++ t)) = true
      rw [ih h]
      simp

/-- The generated stylesheet always contains the idempotency marker. -/
theorem generateConsolidatedCSS_marker (utilityMap : List (String × List String))
    (mappings : List ClassMapping) (cssLayer : Option String) :
    containsSub (generateConsolidatedCSS utilityMap mappings cssLayer).1 cpMarker = true := by
  have hh : containsSeq cpMarker.data cpHeader.data = true := by decide
  unfold generateConsolidatedCSS
  cases cssLayer with
  | none =>
    show containsSeq cpMarker.data (cpHeader ++ _).data = true
    rw [String.data_append]
    exact containsSeq_append_left hh _
  | some layer =>
    show containsSeq cpMarker.data (cpHeader ++ _ ++ _ ++ _ ++ _ ++ _).data = true
    simp only [String.data_append, List.append_assoc]
    exact containsSeq_append_left hh _

/-- If some CSS file already carries the marker, the scan returns an
early answer. -/
theorem injectScan_marker {files : List CssFile}
    (h : ∃ f ∈ files, isCSSFile f.path = true ∧ containsSub f.content cpMarker = true) :
    ∀ (t : String) (s : Nat), ∃ p, injectScan files t s = Sum.inl p := by
  induction files with
  | nil => obtain ⟨f, hf, _⟩ := h; cases hf
  | cons f rest ih =>
    intro t s
    obtain ⟨g, hg, hgc, hgm⟩ := h
    by_cases hfc : isCSSFile f.path = true
    · by_cases hfm : containsSub f.content cpMarker = true
      · exact ⟨f.path, by simp [injectScan, hfc, hfm]⟩
      · have hgr : g ∈ rest := by
          rcases List.mem_cons.mp hg with hgf | hgr
          · exact absurd (hgf ▸ hgm) hfm
          · exact hgr
        by_cases hsz : f.content.utf8ByteSize > s
        · obtain ⟨p, hp⟩ := ih ⟨g, hgr, hgc, hgm⟩ f.path f.content.utf8ByteSize
          exact ⟨p, by simp [injectScan, hfc, hfm, hsz, hp]⟩
        · obtain ⟨p, hp⟩ := ih ⟨g, hgr, hgc, hgm⟩ t s
          exact ⟨p, by simp [injectScan, hfc, hfm, hsz, hp]⟩
    · have hgr : g ∈ rest := by
        rcases List.mem_cons.mp hg with hgf | hgr
        · exact absurd (hgf ▸ hgc) hfc
        · exact hgr
      obtain ⟨p, hp⟩ := ih ⟨g, hgr, hgc, hgm⟩ t s
      exact ⟨p, by simp [injectScan, hfc, hp]⟩

/-- If some CSS file already carries the marker, injection writes
nothing and leaves every file unchanged. -/
theorem inject_unchanged_of_marker {files : List CssFile} (css : String)
    (hne : files ≠ [])
    (h : ∃ f ∈ files, isCSSFile f.path = true ∧ containsSub f.content cpMarker = true) :
    ∃ msg, injectConsolidatedCSS files css = Except.ok (msg, files) := by
  cases files with
  | nil => exact absurd rfl hne
  | cons f0 rest =>
    obtain ⟨p, hp⟩ := injectScan_marker h f0.path 0
    exact ⟨"none (already injected in " ++ p ++ ")",
      by simp [injectConsolidatedCSS, hp]⟩

/-- With no marker present, the scan returns a largest CSS file (or the
initial target when nothing beats the running maximum). -/
theorem injectScan_no_marker {files : List CssFile}
    (hcss : ∀ f ∈ files, isCSSFile f.path = true)
    (hnm : ∀ f ∈ files, containsSub f.content cpMarker = false) :
    ∀ (t : String) (s : Nat),
      (∃ f ∈ files, injectScan files t s = Sum.inr f.path ∧
        s < f.content.utf8ByteSize ∧
        ∀ g ∈ files, g.content.utf8ByteSize ≤ f.content.utf8ByteSize) ∨
      (injectScan files t s = Sum.inr t ∧
        ∀ g ∈ files, g.content.utf8ByteSize ≤ s) := by
  induction files with
  | nil => intro t s; right; exact ⟨rfl, by intro g hg; cases hg⟩
  | cons f rest ih =>
    intro t s
    have hfc := hcss f (List.mem_cons_self _ _)
    have hfm := hnm f (List.mem_cons_self _ _)
    have hcss' : ∀ g ∈ rest, isCSSFile g.path = true :=
      fun g hg => hcss g (List.mem_cons_of_mem _ hg)
    have hnm' : ∀ g ∈ rest, containsSub g.content cpMarker = false :=
      fun g hg => hnm g (List.mem_cons_of_mem _ hg)
    by_cases hsz : f.content.utf8ByteSize > s
    · rcases ih hcss' hnm' f.path f.content.utf8ByteSize with ⟨g, hg, heq, hlt, hmax⟩ | ⟨heq, hmax⟩
      · left
        refine ⟨g, List.mem_cons_of_mem _ hg, ?_, by omega, ?_⟩
        · simp [injectScan, hfc, hfm, hsz, heq]
        · intro g' hg'
          rcases List.mem_cons.mp hg' with h | h
          · subst h; omega
          · exact hmax g' h
      · left
        refine ⟨f, List.mem_cons_self _ _, ?_, hsz, ?_⟩
        · simp [injectScan, hfc, hfm, hsz, heq]
        · intro g' hg'
          rcases List.mem_cons.mp hg' with h | h
          · subst h; omega
          · exact hmax g' h
    · rcases ih hcss' hnm' t s with ⟨g, hg, heq, hlt, hmax⟩ | ⟨heq, hmax⟩
      · left
        refine ⟨g, List.mem_cons_of_mem _ hg, ?_, hlt, ?_⟩
        · simp [injectScan, hfc, hfm, hsz, heq]
        · intro g' hg'
          rcases List.mem_cons.mp hg' with h | h
          · subst h; omega
          · exact hmax g' h
      · right
        refine ⟨?_, ?_⟩
        · simp [injectScan, hfc, hfm, hsz, heq]
        · intro g' hg'
          rcases List.mem_cons.mp hg' with h | h
          · subst h; omega
          · exact hmax g' h

/-- C5: stylesheet injection is at-most-once and idempotent. (a) If any
CSS file under the build root already contains the marker
`'Classpresso Consolidated'`, `injectConsolidatedCSS` modifies no
file. (b) Otherwise it appends the rules to exactly one CSS file — a
largest one. (c) The generated stylesheet always carries the marker,
so a second invocation against the already-optimized output modifies
nothing. -/
theorem c5_inject_at_most_once (files : List CssFile) (css : String)
    (hne : files ≠ [])
    (hcss : ∀ f ∈ files, isCSSFile f.path = true) :
    ((∃ f ∈ files, containsSub f.content cpMarker = true) →
      ∃ msg, injectConsolidatedCSS files css = Except.ok (msg, files)) ∧
    ((∀ f ∈ files, containsSub f.content cpMarker = false) →
      ∃ t ∈ files, injectConsolidatedCSS files css =
          Except.ok (t.path, files.map (fun f => if f.path = t.path
            then { f with content := f.content ++ "\n\n" ++ css } else f)) ∧
        ∀ g ∈ files, g.content.utf8ByteSize ≤ t.content.utf8ByteSize) ∧
    (∀ (utilityMap : List (String × List String)) (mappings : List ClassMapping)
        (cssLayer : Option String),
      containsSub (generateConsolidatedCSS utilityMap mappings cssLayer).1 cpMarker = true) ∧
    (containsSub css cpMarker = true →
      ∀ t ∈ files, ∀ css₂,
        ∃ msg, injectConsolidatedCSS
          (files.map (fun f => if f.path = t.path
            then { f with content := f.content ++ "\n\n" ++ css } else f)) css₂ =
          Except.ok (msg,
            files.map (fun f => if f.path = t.path
              then { f with content := f.content ++ "\n\n" ++ css } else f))) := by
  refine ⟨?_, ?_, generateConsolidatedCSS_marker, ?_⟩
  · intro ⟨f, hf, hm⟩
    exact inject_unchanged_of_marker css hne ⟨f, hf, hcss f hf, hm⟩
  · intro hnm
    cases hfiles : files with
    | nil => exact absurd hfiles hne
    | cons f0 rest =>
      subst hfiles
      rcases injectScan_no_marker hcss hnm f0.path 0 with ⟨t, ht, heq, _, hmax⟩ | ⟨heq, hmax⟩
      · exact ⟨t, ht, by simp [injectConsolidatedCSS, heq], hmax⟩
      · refine ⟨f0, List.mem_cons_self _ _, by simp [injectConsolidatedCSS, heq], ?_⟩
        intro g hg
        have h0 := hmax f0 (List.mem_cons_self _ _)
        have := hmax g hg
        omega
  · intro hcm t ht css₂
    apply inject_unchanged_of_marker
    · intro habs
      have hmem := List.mem_map_of_mem (fun f => if f.path = t.path
          then { f with content := f.content ++ "\n\n" ++ css } else f) ht
      rw [habs] at hmem
      cases hmem
    · refine ⟨{ t with content := t.content ++ "\n\n" ++ css }, ?_, ?_, ?_⟩
      · have hmem := List.mem_map_of_mem (fun f => if f.path = t.path
            then { f with content := f.content ++ "\n\n" ++ css } else f) ht
        simpa using hmem
      · exact hcss t ht
      · show containsSeq cpMarker.data (t.content ++ "\n\n" ++ css).data = true
        have : (t.content ++ "\n\n" ++ css).data =
            (t.content ++ "\n\n").data ++ css.data := by
          rw [String.data_append]
        rw [this]
        exact containsSeq_append_right hcm _

/-- Files for the C5 witness: one already-optimized stylesheet. -/
def c5files : List CssFile :=
  [⟨"main.css", "body /* Classpresso Consolidated Classes */ x"⟩]

/-- Witness for C5: injecting into a build whose stylesheet already
contains the marker returns without modifying any file. -/
theorem c5_inject_at_most_once_witness :
    ∃ msg, injectConsolidatedCSS c5files "q" = Except.ok (msg, c5files) := by
  exact (c5_inject_at_most_once c5files "q" (by simp [c5files]) (by decide)).1
    ⟨⟨"main.css", "body /* Classpresso Consolidated Classes */ x"⟩, by decide, by decide⟩

/-! ### Dynamic-base extraction (src/utils/regex.ts) and the scan loop
(src/core/scanner.ts) -/

/-- `className\s*:\s*` ⌃([^`$]+)\s*\$\{` (backtick-delimited template
literal with a dynamic suffix). -/
def dbpColon : CPat :=
  { pres := [[.lit (cs "className"), .ws, .lit (cs ":"), .ws, .lit (cs "\x60")]]
    stops := ['\x60', '$'], posts := [[.ws, .lit (cs "$\x7b")]] }

/-- The `className=` variant. -/
def dbpEquals : CPat :=
  { pres := [[.lit (cs "className"), .ws, .lit (cs "="), .ws, .lit (cs "\x60")]]
    stops := ['\x60', '$'], posts := [[.ws, .lit (cs "$\x7b")]] }

/-- The `\bclass\s*:\s*` variant. -/
def dbpClassColon : CPat :=
  { pres := [[.bnd, .lit (cs "class"), .ws, .lit (cs ":"), .ws, .lit (cs "\x60")]]
    stops := ['\x60', '$'], posts := [[.ws, .lit (cs "$\x7b")]] }

/-- `DYNAMIC_BASE_PATTERNS`, in source order. -/
def DYNAMIC_BASE_PATTERNS : List CPat := [dbpColon, dbpEquals, dbpClassColon]

/-- `extractDynamicBaseStrings`: the trimmed nonempty static prefixes
of template literals with dynamic suffixes. -/
def extractDynamicBaseStrings (content : List Char) : List String :=
  (DYNAMIC_BASE_PATTERNS.map (fun p =>
    (scanCPat p content).filterMap (fun m =>
      let b := trimChars m.1
      if b.isEmpty then none else some (String.mk b)))).flatten

/-- `className\s*:\s*""\s*\.concat\s*\(\s*"([^"]+)"`. -/
def cbpDouble : CPat :=
  { pres := [[.lit (cs "className"), .ws, .lit (cs ":"), .ws, .lit (cs "\"\""), .ws,
              .lit (cs ".concat"), .ws, .lit (cs "("), .ws, .lit (cs "\"")]]
    stops := ['"'], posts := [[.lit (cs "\"")]] }

/-- The single-quote variant. -/
def cbpSingle : CPat :=
  { pres := [[.lit (cs "className"), .ws, .lit (cs ":"), .ws, .lit (cs "\x27\x27"), .ws,
              .lit (cs ".concat"), .ws, .lit (cs "("), .ws, .lit (cs "\x27")]]
    stops := ['\x27'], posts := [[.lit (cs "\x27")]] }

/-- `CONCAT_BASE_PATTERNS`, in source order. -/
def CONCAT_BASE_PATTERNS : List CPat := [cbpDouble, cbpSingle]

/-- `extractConcatBaseStrings`. -/
def extractConcatBaseStrings (content : List Char) : List String :=
  (CONCAT_BASE_PATTERNS.map (fun p =>
    (scanCPat p content).filterMap (fun m =>
      let b := trimChars m.1
      if b.isEmpty then none else some (String.mk b)))).flatten

/-- An artifact of the build output: a path and the outcome of reading
it. -/
structure Artifact where
  path : String
  read : Except String String

/-- `FileStats`. -/
structure FileStats where
  path : String
  originalSize : Nat
  modified : Bool
deriving DecidableEq

/-- `ScanResult`. -/
structure ScanResult where
  occurrences : List (String × ClassOccurrence)
  files : List FileStats
  errors : List String
  dynamicBasePatterns : List (String × DynamicBasePattern)
deriving DecidableEq

/-- The dynamic-base aggregation step of `scanBuildOutput`. -/
def addDynamicBase (config : ClasspressoConfig)
    (pats : List (String × DynamicBasePattern)) (baseString : String)
    (filePath : String) : List (String × DynamicBasePattern) :=
  let n := normalizeClassString baseString config.exclude
  if n.classes.length < config.minClasses then pats
  else
    match lookupAssoc pats n.normalized with
    | some _ =>
      updateAssoc pats n.normalized (fun p =>
        { p with locations := p.locations ++ [⟨filePath, none⟩] })
    | none =>
      pats ++ [(n.normalized,
        { baseClasses := n.classes, normalizedKey := n.normalized
          locations := [⟨filePath, none⟩] })]

/-- Processing of one successfully read artifact inside
`scanBuildOutput`'s loop: record its stats, collect dynamic bases from
JS files, and aggregate every extracted class string. -/
def scanOneFile (config : ClasspressoConfig) (st : ScanResult)
    (filePath content : String) : ScanResult :=
  let files := st.files ++ [⟨filePath, content.utf8ByteSize, false⟩]
  let dyn :=
    if isJSFile filePath then
      (extractDynamicBaseStrings content.data ++
        extractConcatBaseStrings content.data).foldl
        (fun pats b => addDynamicBase config pats b filePath)
        st.dynamicBasePatterns
    else st.dynamicBasePatterns
  let sourceType := getSourceFileType filePath
  let occs := (extractClassStrings content filePath).foldl
    (fun occs e => addSighting config occs e.classString e.location sourceType)
    st.occurrences
  { occurrences := occs, files := files, errors := st.errors
    dynamicBasePatterns := dyn }

/-- One iteration of `scanBuildOutput`'s artifact loop: skip irrelevant
file kinds; a failed read appends a non-fatal error string. -/
def scanStep (config : ClasspressoConfig) (st : ScanResult) (a : Artifact) :
    ScanResult :=
  if !isJSFile a.path && !isHTMLFile a.path && !isRSCFile a.path then st
  else
    match a.read with
    | Except.ok content => scanOneFile config st a.path content
    | Except.error e =>
      { st with errors := st.errors ++ ["Error scanning " ++ a.path ++ ": " ++ e] }

/-- `scanBuildOutput` over an explicit artifact list. -/
def scanBuildOutput (config : ClasspressoConfig) (artifacts : List Artifact) :
    ScanResult :=
  artifacts.foldl (scanStep config) ⟨[], [], [], []⟩

/-! ### Transformer (src/core/transformer.ts) -/

/-- The combined variation-finding pattern
`(?:className|class)\s*[=:]\s*["']([^"']+)["']`, with the 8 pre
alternatives in regex backtracking order. -/
def fvQuoted : CPat :=
  { pres :=
      [[.lit (cs "className"), .ws, .lit (cs "="), .ws, .lit (cs "\"")],
       [.lit (cs "className"), .ws, .lit (cs "="), .ws, .lit (cs "\x27")],
       [.lit (cs "className"), .ws, .lit (cs ":"), .ws, .lit (cs "\"")],
       [.lit (cs "className"), .ws, .lit (cs ":"), .ws, .lit (cs "\x27")],
       [.lit (cs "class"), .ws, .lit (cs "="), .ws, .lit (cs "\"")],
       [.lit (cs "class"), .ws, .lit (cs "="), .ws, .lit (cs "\x27")],
       [.lit (cs "class"), .ws, .lit (cs ":"), .ws, .lit (cs "\"")],
       [.lit (cs "class"), .ws, .lit (cs ":"), .ws, .lit (cs "\x27")]]
    stops := ['"', '\x27']
    posts := [[.lit (cs "\"")], [.lit (cs "\x27")]] }

/-- `class=&quot;([^&]+)&quot;` (no word boundary here). -/
def fvEntityQuot : CPat :=
  { pres := [[.lit (cs "class=&quot;")]], stops := ['&']
    posts := [[.lit (cs "&quot;")]] }

/-- `class=&#34;([^&]+)&#34;`. -/
def fvEntityNum : CPat :=
  { pres := [[.lit (cs "class=&#34;")]], stops := ['&']
    posts := [[.lit (cs "&#34;")]] }

/-- `(?:className|class)\s*:\s*` ⌃([^`$]+)` ⌃` (static template
literal). -/
def fvTemplateStatic : CPat :=
  { pres :=
      [[.lit (cs "className"), .ws, .lit (cs ":"), .ws, .lit (cs "\x60")],
       [.lit (cs "class"), .ws, .lit (cs ":"), .ws, .lit (cs "\x60")]]
    stops := ['\x60', '$'], posts := [[.lit (cs "\x60")]] }

/-- `(?:className|class)\s*:\s*` ⌃([^`$]+) \$\{` (template literal with
a dynamic suffix). -/
def fvTemplateDynamic : CPat :=
  { pres :=
      [[.lit (cs "className"), .ws, .lit (cs ":"), .ws, .lit (cs "\x60")],
       [.lit (cs "class"), .ws, .lit (cs ":"), .ws, .lit (cs "\x60")]]
    stops := ['\x60', '$'], posts := [[.lit (cs " $\x7b")]] }

/-- `classAttrPatterns` of `findClassVariations`, in source order. -/
def classAttrPatterns : List CPat :=
  [fvQuoted, fvEntityQuot, fvEntityNum, fvTemplateStatic, fvTemplateDynamic]

/-- `findClassVariations`: every attribute value whose normalized token
set is an exact match of the mapping's (deduplicated) target class set,
deduplicated. -/
def findClassVariations (content : String) (mapping : ClassMapping)
    (config : ClasspressoConfig) : List String :=
  let targetList := dedupList mapping.classes
  dedupList ((classAttrPatterns.map (fun p =>
    (scanCPat p content.data).filterMap (fun m =>
      let classString := String.mk m.1
      let n := normalizeClassString classString config.exclude
      if n.classes.length ≥ targetList.length then
        if targetList.all (fun t => n.classes.contains t) &&
            n.classes.length == targetList.length then
          some classString
        else none
      else none))).flatten)

/-- One fixed pattern of `buildMatchPatterns`: the `$1` group, the `$2`
group, and whether the syntax supports trailing data attributes. -/
structure MatchPat where
  pre : List PTok
  post : List PTok
  supportsDataAttr : Bool

/-- `buildMatchPatterns`, in source order (the escaped class string
itself sits between the two groups). -/
def buildMatchPatterns : List MatchPat :=
  [⟨[.lit (cs "className"), .ws, .lit (cs "="), .ws, .lit (cs "\"")], [.lit (cs "\"")], true⟩,
   ⟨[.lit (cs "className"), .ws, .lit (cs "="), .ws, .lit (cs "\x27")], [.lit (cs "\x27")], true⟩,
   ⟨[.lit (cs "className"), .ws, .lit (cs ":"), .ws, .lit (cs "\"")], [.lit (cs "\"")], false⟩,
   ⟨[.lit (cs "className"), .ws, .lit (cs ":"), .ws, .lit (cs "\x27")], [.lit (cs "\x27")], false⟩,
   ⟨[.lit (cs "className"), .ws, .lit (cs ":"), .ws, .lit (cs "\x60")], [.lit (cs "\x60")], false⟩,
   ⟨[.lit (cs "className"), .ws, .lit (cs ":"), .ws, .lit (cs "\x60")], [.lit (cs " $\x7b")], false⟩,
   ⟨[.lit (cs "\"className\""), .ws, .lit (cs ","), .ws, .lit (cs "\"")], [.lit (cs "\"")], false⟩,
   ⟨[.bnd, .lit (cs "class"), .ws, .lit (cs "="), .ws, .lit (cs "\"")], [.lit (cs "\"")], true⟩,
   ⟨[.bnd, .lit (cs "class"), .ws, .lit (cs "="), .ws, .lit (cs "\x27")], [.lit (cs "\x27")], true⟩,
   ⟨[.lit (cs "class=&quot;")], [.lit (cs "&quot;")], true⟩,
   ⟨[.lit (cs "class=&#34;")], [.lit (cs "&#34;")], true⟩]

/-- Global regex replacement of `$1 mid $2` by `$1 repl $2 suffix`
(scanning the original text; replacements are not rescanned). -/
def replaceMatchAux (pre : List PTok) (mid : List Char) (post : List PTok)
    (repl : List Char) (suffix : List Char) :
    Nat → Option Char → List Char → List Char
  | 0, _, l => l
  | fuel + 1, prev, l =>
    match matchP pre prev l with
    | some (preT, r1, p1) =>
      if mid.isPrefixOf r1 then
        match matchP post (lastCharOf mid p1) (r1.drop mid.length) with
        | some (postT, r2, _) =>
          preT ++ repl ++ postT ++ suffix ++
            replaceMatchAux pre mid post repl suffix fuel
              (lastCharOf postT (lastCharOf mid (lastCharOf preT prev))) r2
        | none =>
          match l with
          | [] => []
          | c :: rest =>
            c :: replaceMatchAux pre mid post repl suffix fuel (some c) rest
      else
        match l with
        | [] => []
        | c :: rest =>
          c :: replaceMatchAux pre mid post repl suffix fuel (some c) rest
    | none =>
      match l with
      | [] => []
      | c :: rest =>
        c :: replaceMatchAux pre mid post repl suffix fuel (some c) rest

/-- Count the matches of `$1 mid $2` in a text (for the replacement
counter, which consults the pattern against the pre-replacement
content). -/
def countMatchesAux (pre : List PTok) (mid : List Char) (post : List PTok) :
    Nat → Option Char → List Char → Nat
  | 0, _, _ => 0
  | fuel + 1, prev, l =>
    match matchP pre prev l with
    | some (preT, r1, p1) =>
      if mid.isPrefixOf r1 then
        match matchP post (lastCharOf mid p1) (r1.drop mid.length) with
        | some (postT, r2, _) =>
          1 + countMatchesAux pre mid post fuel
            (lastCharOf postT (lastCharOf mid (lastCharOf preT prev))) r2
        | none =>
          match l with
          | [] => 0
          | c :: rest => countMatchesAux pre mid post fuel (some c) rest
      else
        match l with
        | [] => 0
        | c :: rest => countMatchesAux pre mid post fuel (some c) rest
    | none =>
      match l with
      | [] => 0
      | c :: rest => countMatchesAux pre mid post fuel (some c) rest

/-- `replacePattern`: substitute the consolidated name (plus preserved
excluded classes, plus an optional data attribute on supporting
syntaxes) for one textual variation across all match patterns. Returns
the new content and the replacement count. -/
def replacePattern (content : String) (originalClasses : String)
    (consolidated : String) (excludedClasses : List String)
    (originalClassList : List String) (addDataAttributes : Bool) :
    String × Nat :=
  let replacement :=
    if excludedClasses.length > 0 then
      consolidated ++ " " ++ joinSpace excludedClasses
    else consolidated
  let dataAttr :=
    if addDataAttributes then
      " data-cp-original=\"" ++ joinSpace originalClassList ++ "\""
    else ""
  let r := buildMatchPatterns.foldl (fun (acc : List Char × Nat) mp =>
    let suffix := if addDataAttributes && mp.supportsDataAttr then dataAttr.data else []
    let newResult := replaceMatchAux mp.pre originalClasses.data mp.post
      replacement.data suffix (acc.1.length + 1) none acc.1
    if newResult.length ≠ acc.1.length then
      (newResult, acc.2 + countMatchesAux mp.pre originalClasses.data mp.post
        (content.data.length + 1) none content.data)
    else (newResult, acc.2)) (content.data, 0)
  (String.mk r.1, r.2)

/-- The result of `transformFile`, together with the content that would
be written back (`none` when nothing is written). -/
structure TransformFileResult where
  modified : Bool
  replacements : Nat
  skippedForHydration : Nat
  error : Option String
  newContent : Option String

/-- `transformFile`: per mapping, apply the hydration gate, then
replace every found variation; a read failure is caught and returned as
a non-fatal error. -/
def transformFile (filePath : String) (readRes : Except String String)
    (mappings : List ClassMapping) (config : ClasspressoConfig) (dryRun : Bool)
    (dynamicBasePatterns : List (String × DynamicBasePattern)) :
    TransformFileResult :=
  match readRes with
  | Except.error e =>
    { modified := false, replacements := 0, skippedForHydration := 0
      error := some ("Error transforming " ++ filePath ++ ": " ++ e)
      newContent := none }
  | Except.ok content =>
    let isHTMLf := isHTMLFile filePath
    let isJSf := isJSFile filePath
    let r := mappings.foldl (fun (acc : String × Nat × Nat) mapping =>
      if skipForHydration isHTMLf isJSf mapping.classes dynamicBasePatterns then
        (acc.1, acc.2.1, acc.2.2 + 1)
      else
        let variations := findClassVariations acc.1 mapping config
        let rr := variations.foldl (fun (acc2 : String × Nat) variation =>
          let pr := replacePattern acc2.1 variation mapping.consolidated
            mapping.excludedClasses mapping.classes config.dataAttributes
          (pr.1, acc2.2 + pr.2)) (acc.1, acc.2.1)
        (rr.1, rr.2, acc.2.2)) (content, 0, 0)
    let modified := r.1 ≠ content
    { modified := modified, replacements := r.2.1, skippedForHydration := r.2.2
      error := none
      newContent := if modified && !dryRun then some r.1 else none }

/-- The transformation outcome over the whole build: the source's
`TransformResult` counters plus the resulting on-disk contents of the
processed artifacts. -/
structure TransformResult where
  filesModified : Nat
  bytesChanged : Nat
  errors : List String
  outputs : List (String × String)

/-- One iteration of `transformBuildOutput`'s loop. -/
def transformStep (mappings : List ClassMapping) (config : ClasspressoConfig)
    (dryRun : Bool) (dynamicBasePatterns : List (String × DynamicBasePattern))
    (acc : TransformResult) (a : Artifact) : TransformResult :=
  if !isJSFile a.path && !isHTMLFile a.path && !isRSCFile a.path then acc
  else
    let r := transformFile a.path a.read mappings config dryRun dynamicBasePatterns
    { filesModified := acc.filesModified + (if r.modified then 1 else 0)
      bytesChanged := acc.bytesChanged + (if r.modified then r.replacements * 10 else 0)
      errors := acc.errors ++ (match r.error with | some e => [e] | none => [])
      outputs := acc.outputs ++
        (match a.read with
         | Except.ok content =>
           [(a.path, match r.newContent with | some nc => nc | none => content)]
         | Except.error _ => []) }

/-- `transformBuildOutput` over an explicit artifact list. -/
def transformBuildOutput (mappings : List ClassMapping)
    (config : ClasspressoConfig) (dryRun : Bool)
    (dynamicBasePatterns : List (String × DynamicBasePattern))
    (artifacts : List Artifact) : TransformResult :=
  artifacts.foldl (transformStep mappings config dryRun dynamicBasePatterns)
    ⟨0, 0, [], []⟩

/-! ### Per-artifact failure handling (C9) -/

/-- The error string a failing artifact contributes to the scan (none
for irrelevant file kinds or successful reads). -/
def scanErrMsg (a : Artifact) : Option String :=
  if !isJSFile a.path && !isHTMLFile a.path && !isRSCFile a.path then none
  else
    match a.read with
    | Except.error e => some ("Error scanning " ++ a.path ++ ": " ++ e)
    | Except.ok _ => none

/-- The error string a failing artifact contributes to the transform. -/
def transformErrMsg (a : Artifact) : Option String :=
  if !isJSFile a.path && !isHTMLFile a.path && !isRSCFile a.path then none
  else
    match a.read with
    | Except.error e => some ("Error transforming " ++ a.path ++ ": " ++ e)
    | Except.ok _ => none

theorem scanFold_errors (config : ClasspressoConfig) (artifacts : List Artifact) :
    ∀ st : ScanResult,
      (artifacts.foldl (scanStep config) st).errors =
        st.errors ++ artifacts.filterMap scanErrMsg := by
  induction artifacts with
  | nil => intro st; simp
  | cons a rest ih =>
    intro st
    rw [List.foldl_cons, ih]
    by_cases hg : (!isJSFile a.path && !isHTMLFile a.path && !isRSCFile a.path) = true
    · simp [scanStep, scanErrMsg, hg]
    · cases hread : a.read with
      | ok content =>
        simp [scanStep, scanErrMsg, hg, hread, scanOneFile]
      | error e =>
        simp [scanStep, scanErrMsg, hg, hread]

theorem scanStep_core (config : ClasspressoConfig) (a : Artifact)
    {st₁ st₂ : ScanResult}
    (hocc : st₁.occurrences = st₂.occurrences) (hfiles : st₁.files = st₂.files)
    (hdyn : st₁.dynamicBasePatterns = st₂.dynamicBasePatterns) :
    (scanStep config st₁ a).occurrences = (scanStep config st₂ a).occurrences ∧
    (scanStep config st₁ a).files = (scanStep config st₂ a).files ∧
    (scanStep config st₁ a).dynamicBasePatterns =
      (scanStep config st₂ a).dynamicBasePatterns := by
  by_cases hg : (!isJSFile a.path && !isHTMLFile a.path && !isRSCFile a.path) = true
  · simp [scanStep, hg, hocc, hfiles, hdyn]
  · cases hread : a.read with
    | ok content => simp [scanStep, hg, hread, scanOneFile, hocc, hfiles, hdyn]
    | error e => simp [scanStep, hg, hread, hocc, hfiles, hdyn]

theorem scanFold_core (config : ClasspressoConfig) (artifacts : List Artifact) :
    ∀ {st₁ st₂ : ScanResult},
      st₁.occurrences = st₂.occurrences → st₁.files = st₂.files →
      st₁.dynamicBasePatterns = st₂.dynamicBasePatterns →
      (artifacts.foldl (scanStep config) st₁).occurrences =
        (artifacts.foldl (scanStep config) st₂).occurrences ∧
      (artifacts.foldl (scanStep config) st₁).files =
        (artifacts.foldl (scanStep config) st₂).files ∧
      (artifacts.foldl (scanStep config) st₁).dynamicBasePatterns =
        (artifacts.foldl (scanStep config) st₂).dynamicBasePatterns := by
  induction artifacts with
  | nil => intro st₁ st₂ h₁ h₂ h₃; exact ⟨h₁, h₂, h₃⟩
  | cons a rest ih =>
    intro st₁ st₂ h₁ h₂ h₃
    obtain ⟨g₁, g₂, g₃⟩ := scanStep_core config a h₁ h₂ h₃
    exact ih g₁ g₂ g₃

theorem scanFold_filter (config : ClasspressoConfig) (artifacts : List Artifact) :
    ∀ st : ScanResult,
      (artifacts.foldl (scanStep config) st).occurrences =
        ((artifacts.filter (fun a => (scanErrMsg a).isNone)).foldl
          (scanStep config) st).occurrences ∧
      (artifacts.foldl (scanStep config) st).files =
        ((artifacts.filter (fun a => (scanErrMsg a).isNone)).foldl
          (scanStep config) st).files ∧
      (artifacts.foldl (scanStep config) st).dynamicBasePatterns =
        ((artifacts.filter (fun a => (scanErrMsg a).isNone)).foldl
          (scanStep config) st).dynamicBasePatterns := by
  induction artifacts with
  | nil => intro st; exact ⟨rfl, rfl, rfl⟩
  | cons a rest ih =>
    intro st
    by_cases he : (scanErrMsg a).isNone = true
    · have hkeep : (a :: rest).filter (fun x => (scanErrMsg x).isNone) =
          a :: rest.filter (fun x => (scanErrMsg x).isNone) := by
        simp [List.filter_cons, he]
      rw [hkeep, List.foldl_cons, List.foldl_cons]
      exact ih (scanStep config st a)
    · have hdrop : (a :: rest).filter (fun x => (scanErrMsg x).isNone) =
          rest.filter (fun x => (scanErrMsg x).isNone) := by
        simp [List.filter_cons, he]
      rw [hdrop, List.foldl_cons]
      have hstep : (scanStep config st a).occurrences = st.occurrences ∧
          (scanStep config st a).files = st.files ∧
          (scanStep config st a).dynamicBasePatterns = st.dynamicBasePatterns := by
        by_cases hg : (!isJSFile a.path && !isHTMLFile a.path && !isRSCFile a.path) = true
        · simp [scanStep, hg]
        · cases hread : a.read with
          | ok content =>
            exfalso
            simp [scanErrMsg, hg, hread] at he
          | error e => simp [scanStep, hg, hread]
      obtain ⟨g₁, g₂, g₃⟩ := scanFold_core config rest hstep.1 hstep.2.1 hstep.2.2
      obtain ⟨f₁, f₂, f₃⟩ := ih st
      exact ⟨g₁.trans f₁, g₂.trans f₂, g₃.trans f₃⟩

theorem transformFold_errors (mappings : List ClassMapping)
    (config : ClasspressoConfig) (dryRun : Bool)
    (pats : List (String × DynamicBasePattern)) (artifacts : List Artifact) :
    ∀ acc : TransformResult,
      (artifacts.foldl (transformStep mappings config dryRun pats) acc).errors =
        acc.errors ++ artifacts.filterMap transformErrMsg := by
  induction artifacts with
  | nil => intro acc; simp
  | cons a rest ih =>
    intro acc
    rw [List.foldl_cons, ih]
    by_cases hg : (!isJSFile a.path && !isHTMLFile a.path && !isRSCFile a.path) = true
    · simp [transformStep, transformErrMsg, hg]
    · cases hread : a.read with
      | ok content =>
        simp [transformStep, transformErrMsg, transformFile, hg, hread]
      | error e =>
        simp [transformStep, transformErrMsg, transformFile, hg, hread]

theorem transformStep_core (mappings : List ClassMapping)
    (config : ClasspressoConfig) (dryRun : Bool)
    (pats : List (String × DynamicBasePattern)) (a : Artifact)
    {t₁ t₂ : TransformResult}
    (hfm : t₁.filesModified = t₂.filesModified)
    (hb : t₁.bytesChanged = t₂.bytesChanged)
    (ho : t₁.outputs = t₂.outputs) :
    (transformStep mappings config dryRun pats t₁ a).filesModified =
      (transformStep mappings config dryRun pats t₂ a).filesModified ∧
    (transformStep mappings config dryRun pats t₁ a).bytesChanged =
      (transformStep mappings config dryRun pats t₂ a).bytesChanged ∧
    (transformStep mappings config dryRun pats t₁ a).outputs =
      (transformStep mappings config dryRun pats t₂ a).outputs := by
  by_cases hg : (!isJSFile a.path && !isHTMLFile a.path && !isRSCFile a.path) = true
  · simp [transformStep, hg, hfm, hb, ho]
  · simp [transformStep, hg, hfm, hb, ho]

theorem transformFold_core (mappings : List ClassMapping)
    (config : ClasspressoConfig) (dryRun : Bool)
    (pats : List (String × DynamicBasePattern)) (artifacts : List Artifact) :
    ∀ {t₁ t₂ : TransformResult},
      t₁.filesModified = t₂.filesModified → t₁.bytesChanged = t₂.bytesChanged →
      t₁.outputs = t₂.outputs →
      (artifacts.foldl (transformStep mappings config dryRun pats) t₁).filesModified =
        (artifacts.foldl (transformStep mappings config dryRun pats) t₂).filesModified ∧
      (artifacts.foldl (transformStep mappings config dryRun pats) t₁).bytesChanged =
        (artifacts.foldl (transformStep mappings config dryRun pats) t₂).bytesChanged ∧
      (artifacts.foldl (transformStep mappings config dryRun pats) t₁).outputs =
        (artifacts.foldl (transformStep mappings config dryRun pats) t₂).outputs := by
  induction artifacts with
  | nil => intro t₁ t₂ h₁ h₂ h₃; exact ⟨h₁, h₂, h₃⟩
  | cons a rest ih =>
    intro t₁ t₂ h₁ h₂ h₃
    obtain ⟨g₁, g₂, g₃⟩ := transformStep_core mappings config dryRun pats a h₁ h₂ h₃
    exact ih g₁ g₂ g₃

theorem transformFold_filter (mappings : List ClassMapping)
    (config : ClasspressoConfig) (dryRun : Bool)
    (pats : List (String × DynamicBasePattern)) (artifacts : List Artifact) :
    ∀ acc : TransformResult,
      (artifacts.foldl (transformStep mappings config dryRun pats) acc).filesModified =
        ((artifacts.filter (fun a => (transformErrMsg a).isNone)).foldl
          (transformStep mappings config dryRun pats) acc).filesModified ∧
      (artifacts.foldl (transformStep mappings config dryRun pats) acc).bytesChanged =
        ((artifacts.filter (fun a => (transformErrMsg a).isNone)).foldl
          (transformStep mappings config dryRun pats) acc).bytesChanged ∧
      (artifacts.foldl (transformStep mappings config dryRun pats) acc).outputs =
        ((artifacts.filter (fun a => (transformErrMsg a).isNone)).foldl
          (transformStep mappings config dryRun pats) acc).outputs := by
  induction artifacts with
  | nil => intro acc; exact ⟨rfl, rfl, rfl⟩
  | cons a rest ih =>
    intro acc
    by_cases he : (transformErrMsg a).isNone = true
    · have hkeep : (a :: rest).filter (fun x => (transformErrMsg x).isNone) =
          a :: rest.filter (fun x => (transformErrMsg x).isNone) := by
        simp [List.filter_cons, he]
      rw [hkeep, List.foldl_cons, List.foldl_cons]
      exact ih (transformStep mappings config dryRun pats acc a)
    · have hdrop : (a :: rest).filter (fun x => (transformErrMsg x).isNone) =
          rest.filter (fun x => (transformErrMsg x).isNone) := by
        simp [List.filter_cons, he]
      rw [hdrop, List.foldl_cons]
      have hstep : (transformStep mappings config dryRun pats acc a).filesModified =
            acc.filesModified ∧
          (transformStep mappings config dryRun pats acc a).bytesChanged =
            acc.bytesChanged ∧
          (transformStep mappings config dryRun pats acc a).outputs = acc.outputs := by
        by_cases hg : (!isJSFile a.path && !isHTMLFile a.path && !isRSCFile a.path) = true
        · simp [transformStep, hg]
        · cases hread : a.read with
          | ok content =>
            exfalso
            simp [transformErrMsg, hg, hread] at he
          | error e => simp [transformStep, transformFile, hg, hread]
      obtain ⟨g₁, g₂, g₃⟩ :=
        transformFold_core mappings config dryRun pats rest hstep.1 hstep.2.1 hstep.2.2
      obtain ⟨f₁, f₂, f₃⟩ := ih acc
      exact ⟨g₁.trans f₁, g₂.trans f₂, g₃.trans f₃⟩

/-- C9: a read failure on one artifact is caught, recorded as an error
string, and does not abort the batch. The scan's error list is exactly
the failing artifacts' messages, and its occurrences and file stats
equal those of a run over the non-failing artifacts alone; likewise the
transform's errors, modified-file count, byte count and resulting
contents. -/
theorem c9_failures_are_nonfatal (config : ClasspressoConfig)
    (mappings : List ClassMapping) (dryRun : Bool)
    (pats : List (String × DynamicBasePattern)) (artifacts : List Artifact) :
    ((scanBuildOutput config artifacts).errors = artifacts.filterMap scanErrMsg ∧
     (scanBuildOutput config artifacts).occurrences =
       (scanBuildOutput config
         (artifacts.filter (fun a => (scanErrMsg a).isNone))).occurrences ∧
     (scanBuildOutput config artifacts).files =
       (scanBuildOutput config
         (artifacts.filter (fun a => (scanErrMsg a).isNone))).files ∧
     (scanBuildOutput config artifacts).dynamicBasePatterns =
       (scanBuildOutput config
         (artifacts.filter (fun a => (scanErrMsg a).isNone))).dynamicBasePatterns) ∧
    ((transformBuildOutput mappings config dryRun pats artifacts).errors =
       artifacts.filterMap transformErrMsg ∧
     (transformBuildOutput mappings config dryRun pats artifacts).filesModified =
       (transformBuildOutput mappings config dryRun pats
         (artifacts.filter (fun a => (transformErrMsg a).isNone))).filesModified ∧
     (transformBuildOutput mappings config dryRun pats artifacts).bytesChanged =
       (transformBuildOutput mappings config dryRun pats
         (artifacts.filter (fun a => (transformErrMsg a).isNone))).bytesChanged ∧
     (transformBuildOutput mappings config dryRun pats artifacts).outputs =
       (transformBuildOutput mappings config dryRun pats
         (artifacts.filter (fun a => (transformErrMsg a).isNone))).outputs) := by
  obtain ⟨s₁, s₂, s₃⟩ := scanFold_filter config artifacts ⟨[], [], [], []⟩
  obtain ⟨t₁, t₂, t₃⟩ := transformFold_filter mappings config dryRun pats artifacts ⟨0, 0, [], []⟩
  refine ⟨⟨?_, s₁, s₂, s₃⟩, ⟨?_, t₁, t₂, t₃⟩⟩
  · simpa using scanFold_errors config artifacts ⟨[], [], [], []⟩
  · simpa using transformFold_errors mappings config dryRun pats artifacts ⟨0, 0, [], []⟩

/-! ### The default configuration (src/config.ts) and the end-to-end
scenario (C8) -/

/-- `DEFAULT_DYNAMIC_PREFIXES`. -/
def DEFAULT_DYNAMIC_PREFIXES : List String :=
  ["lucide", "heroicon", "icon-", "fa-", "fas", "far", "fab",
   "material-icons", "mdi-", "ri-", "bi-", "tabler-", "phosphor-"]

/-- `DEFAULT_CONFIG` (the three regex safelist entries anchor on the
prefixes `qa-`, `test-` and `e2e-`, so they are their prefix
predicates). -/
def DEFAULT_CONFIG : ClasspressoConfig :=
  { minOccurrences := 2, minClasses := 2, minBytesSaved := 10
    hashPrefixStr := "cp-", hashLength := 5
    exclude :=
      { prefixes := ["js-", "data-", "hook-", "track-"]
        suffixes := ["-handler", "-trigger"], classes := []
        patterns := [fun s => strStartsWith s "qa-",
          fun s => strStartsWith s "test-", fun s => strStartsWith s "e2e-"]
        files := [] }
    cssLayer := none, dataAttributes := false, forceAll := false
    excludeDynamicPatterns := true, dynamicPrefixes := DEFAULT_DYNAMIC_PREFIXES
    skipPatternsWithExcludedClasses := true, ssr := false }

/-- Modelled from the spec: `createClassMappings`
(src/core/consolidator.ts is not among the sources). A Class Mapping is
the durable projection of a candidate: original token sequence,
synthetic name, safelisted tokens, declaration list (filled in later by
the Rule Synthesizer), repeat count and byte savings. -/
def createClassMappings (candidates : List ConsolidationCandidate) :
    List ClassMapping :=
  candidates.map (fun c =>
    { original := c.classString, consolidated := c.hashName
      classes := c.classes, excludedClasses := c.excludedClasses
      cssDeclarations := "", frequency := c.frequency
      bytesSaved := c.bytesSaved })

/-- Three markup artifacts, each bearing one element with the repeated
class value. -/
def c8artifacts : List Artifact :=
  [⟨"app/a.html", Except.ok "<div class=\"flex items-center gap-2\">A</div>"⟩,
   ⟨"app/b.html", Except.ok "<div class=\"flex items-center gap-2\">B</div>"⟩,
   ⟨"app/c.html", Except.ok "<div class=\"flex items-center gap-2\">C</div>"⟩]

/-- The scenario's pipeline stages. -/
def c8scan : ScanResult := scanBuildOutput DEFAULT_CONFIG c8artifacts

def c8mappings : List ClassMapping :=
  createClassMappings (detectConsolidatablePatterns c8scan.occurrences DEFAULT_CONFIG)

def c8gen : String × List ClassMapping :=
  generateConsolidatedCSS [] c8mappings DEFAULT_CONFIG.cssLayer

def c8transform : TransformResult :=
  transformBuildOutput c8gen.2 DEFAULT_CONFIG false c8scan.dynamicBasePatterns c8artifacts

/-- C8: three elements repeating `"flex items-center gap-2"` under the
default configuration yield exactly one Class Mapping with repeat count
3 and a synthetic name of length prefix + suffix; the synthesized rule
carries exactly the declarations `display: flex`, `align-items: center`
and the scale value of `gap-2`; and after rewriting all three elements
bear only the synthetic name. -/
theorem c8_three_element_scenario :
    c8mappings.length = 1 ∧
    c8gen.2.map (fun m => (m.frequency, m.consolidated.length, m.cssDeclarations)) =
      [(3, DEFAULT_CONFIG.hashPrefixStr.length + DEFAULT_CONFIG.hashLength,
        "display: flex; align-items: center; gap: 0.5rem")] ∧
    c8gen.1 = cpHeader ++
      cssRule (generateHashName "flex gap-2 items-center" "cp-" 5)
        ["display: flex", "align-items: center", "gap: 0.5rem"] ∧
    c8transform.outputs =
      [("app/a.html", "<div class=\"" ++
          generateHashName "flex gap-2 items-center" "cp-" 5 ++ "\">A</div>"),
       ("app/b.html", "<div class=\"" ++
          generateHashName "flex gap-2 items-center" "cp-" 5 ++ "\">B</div>"),
       ("app/c.html", "<div class=\"" ++
          generateHashName "flex gap-2 items-center" "cp-" 5 ++ "\">C</div>")] ∧
    c8transform.filesModified = 3 ∧ c8transform.errors = [] := by
  refine ⟨by decide, by decide, by decide, by decide, by decide, by decide⟩

end Classpresso
